import Mathlib

/-!
# Bathroom optimiser: a shallow embedding of `src/main.cpp`

The C++ program is a small genetic algorithm.  This file embeds its data
model and its functions as Lean definitions and proves properties of them.

Modelling conventions.

* `int` values are mathematical integers (`Int`).  Signed overflow is undefined
  behaviour in C++ and lies outside the model.
* `float` values are rationals (`ℚ`).  Every fitness value the program computes
  is a multiple of `0.5` between `0` and `21`, which binary floating point
  represents exactly, so the arithmetic of `calculate_residence_points` is
  exact.  NaN and infinities are not modelled.  The quotient `rand() / RAND_MAX`
  of `mutate` is taken exactly, without the rounding of `float`; `RAND_MAX` is a
  parameter.
* A failed `assert` and an uncaught `std::out_of_range` of `vector::at` abort
  the program; the embedding returns `none`.
* `rand()` is a sequence `src : Nat → Nat` of the values the calls return,
  together with the number of calls made so far.
* The memory an allocator addresses through `buffer` is a total map from
  positions (counted in `Individual`s from `buffer`) to candidates: a position is
  what the pointer arithmetic of the source computes, whether or not it lies
  inside the `capacity` slots that `init` created.  Two allocators never share
  memory.
* `std::sort` is a parameter `sort`; `IsStdSort sort` is its postcondition
  (a permutation of the input, ordered by the comparator).  The order of
  elements with equal fitness is whatever `sort` makes it.
-/

namespace Bathroom

/-! ## Constants -/

def POPULATION_SIZE : Int := 32
def GENERATIONS : Nat := 4
def N_SURVIVORS : Int := 16

/-! ## Data model -/

structure Residence where
  has_shower : Bool
  has_bath : Bool
  has_bath_and_shower : Bool
  has_sink : Bool
  has_dual_sink : Bool
  has_curtain : Bool
  has_radiator : Bool
  has_closet : Bool
  has_wallsocket : Bool
  has_thermostatic : Bool
deriving DecidableEq, Repr

structure Individual where
  residence : Residence
  fitness : ℚ
deriving DecidableEq, Repr

/-- The value of `sizeof(Individual)`: ten one-byte flags, two bytes of padding
and a four-byte `float`. -/
def sizeof_Individual : Int := 16

/-- The allocator of the source: `buffer` is the memory reachable from the
pointer, `capacity` and `items` are the two `int` fields. -/
structure BumpAllocator where
  buffer : Int → Individual
  capacity : Int
  items : Int

namespace BumpAllocator

/-- `init`: `mem` is the content of the fresh, uninitialised storage. -/
def init (mem : Int → Individual) (population_size : Int) : BumpAllocator :=
  { buffer := mem, capacity := population_size, items := 0 }

/-- `allocate`: the assertion, then the returned pointer (as a position) and the
advanced fill count. -/
def allocate (a : BumpAllocator) (nr_individuals : Int) : Option (Int × BumpAllocator) :=
  if a.items + nr_individuals ≤ a.capacity then
    some (a.items * sizeof_Individual, { a with items := a.items + nr_individuals })
  else none

/-- `get_individual_by_index`: the assertion, then the returned pointer. -/
def get_individual_by_index (a : BumpAllocator) (index : Int) : Option Int :=
  if index ≤ a.items then some (index * sizeof_Individual) else none

def reset (a : BumpAllocator) : BumpAllocator := { a with items := 0 }

/-- Reading through a pointer. -/
def read (a : BumpAllocator) (p : Int) : Individual := a.buffer p

/-- Writing through a pointer. -/
def write (a : BumpAllocator) (p : Int) (v : Individual) : BumpAllocator :=
  { a with buffer := fun q => if q = p then v else a.buffer q }

/-- The candidate `get_individual_by_index(index)` points at. -/
def individual (a : BumpAllocator) (index : Int) : Option Individual :=
  match a.get_individual_by_index index with
  | none => none
  | some p => some (a.read p)

end BumpAllocator

/-! ## Fitness -/

/-- The local `bath_shower_points` of `calculate_residence_points`. -/
def bath_shower_points (residence : Residence) : ℚ :=
  if residence.has_bath_and_shower then 7
  else if residence.has_bath then 6
  else if residence.has_shower then 4
  else 0

/-- The local `amenity_points` of `calculate_residence_points`, after the seven
conditional additions. -/
def amenity_points (residence : Residence) : ℚ :=
  let amenity_points : ℚ := 0
  let amenity_points := if residence.has_sink then amenity_points + 1/2 else amenity_points
  let amenity_points := if residence.has_dual_sink then amenity_points + 1 else amenity_points
  let amenity_points := if residence.has_curtain then amenity_points + 1 else amenity_points
  let amenity_points := if residence.has_radiator then amenity_points + 3/2 else amenity_points
  let amenity_points := if residence.has_closet then amenity_points + 2 else amenity_points
  let amenity_points := if residence.has_wallsocket then amenity_points + 1/2 else amenity_points
  let amenity_points := if residence.has_thermostatic then amenity_points + 1 else amenity_points
  amenity_points

def calculate_residence_points (residence : Residence) : ℚ :=
  min (bath_shower_points residence + amenity_points residence) (bath_shower_points residence * 2)

/-- The base score as the specification words it: 4 for shower, 6 for bath, 7 for
bath_and_shower. -/
def spec_base (r : Residence) : ℚ :=
  if r.has_shower then 4 else if r.has_bath then 6 else if r.has_bath_and_shower then 7 else 0

/-- The amenity sum as the specification words it: the weights of the set flags. -/
def spec_amenities (r : Residence) : ℚ :=
  (if r.has_sink then 1/2 else 0) + (if r.has_dual_sink then 1 else 0)
    + (if r.has_curtain then 1 else 0) + (if r.has_radiator then 3/2 else 0)
    + (if r.has_closet then 2 else 0) + (if r.has_wallsocket then 1/2 else 0)
    + (if r.has_thermostatic then 1 else 0)

/-- Exactly one of the three bathing-fixture flags is set. -/
def one_fixture (r : Residence) : Prop :=
  (r.has_shower = true ∧ r.has_bath = false ∧ r.has_bath_and_shower = false) ∨
  (r.has_shower = false ∧ r.has_bath = true ∧ r.has_bath_and_shower = false) ∨
  (r.has_shower = false ∧ r.has_bath = false ∧ r.has_bath_and_shower = true)

instance (r : Residence) : Decidable (one_fixture r) := by
  unfold one_fixture; infer_instance

/-! ## The random source -/

/-- The candidate `generate_random_individual` writes, from the eight values
`rand()` returns from call number `pos` on. -/
def random_individual (src : Nat → Nat) (pos : Nat) : Individual :=
  let bathing_type := src pos % 3
  { residence :=
      { has_shower := decide (bathing_type = 0)
        has_bath := decide (bathing_type = 1)
        has_bath_and_shower := decide (bathing_type = 2)
        has_sink := decide (src (pos + 1) % 2 ≠ 0)
        has_dual_sink := decide (src (pos + 2) % 2 ≠ 0)
        has_curtain := decide (src (pos + 3) % 2 ≠ 0)
        has_radiator := decide (src (pos + 4) % 2 ≠ 0)
        has_closet := decide (src (pos + 5) % 2 ≠ 0)
        has_wallsocket := decide (src (pos + 6) % 2 ≠ 0)
        has_thermostatic := decide (src (pos + 7) % 2 ≠ 0) }
    fitness := 0 }

/-! ## Random generation -/

def generate_random_individual (src : Nat → Nat) (population_allocator : BumpAllocator)
    (pos : Nat) : Option (BumpAllocator × Nat) :=
  match population_allocator.allocate 1 with
  | none => none
  | some (individual, pa) => some (pa.write individual (random_individual src pos), pos + 8)

def generate_random_individuals (src : Nat → Nat) (population_allocator : BumpAllocator)
    (nr_individuals : Int) (pos : Nat) : Option (BumpAllocator × Nat) :=
  (List.range nr_individuals.toNat).foldlM
    (fun st _ => generate_random_individual src st.1 st.2) (population_allocator, pos)

/-! ## Evaluation -/

/-- The body of the loop of `calculate_population_fitness`. -/
def evaluate_individual (population_arena : BumpAllocator) (i : Nat) : Option BumpAllocator :=
  match population_arena.get_individual_by_index (i : Int) with
  | none => none
  | some individual =>
    some (population_arena.write individual
      { residence := (population_arena.read individual).residence
        fitness := calculate_residence_points (population_arena.read individual).residence })

def calculate_population_fitness (population_arena : BumpAllocator) : Option BumpAllocator :=
  (List.range population_arena.items.toNat).foldlM evaluate_individual population_arena

/-! ## Selection -/

/-- The postcondition of `std::sort` with the comparator `a.first > b.first`:
the output is a permutation of the input and no later element compares before
an earlier one. -/
def IsStdSort (sort : List (ℚ × Int) → List (ℚ × Int)) : Prop :=
  ∀ l, (sort l).Perm l ∧ (sort l).Pairwise (fun a b => ¬ (b.1 > a.1))

/-- One sort that meets the postcondition: insertion sort, which keeps elements
of equal fitness in their input order. -/
def stable_sort (l : List (ℚ × Int)) : List (ℚ × Int) :=
  l.insertionSort (fun a b => a.1 ≥ b.1)

instance : IsTotal (ℚ × Int) (fun a b => a.1 ≥ b.1) := ⟨fun a b => le_total b.1 a.1⟩

instance : IsTrans (ℚ × Int) (fun a b => a.1 ≥ b.1) := ⟨fun _ _ _ h1 h2 => le_trans h2 h1⟩

/-- The body of the loop of `select_individuals`: append the pair of candidate `i`. -/
def select_entry (population_arena : BumpAllocator) (selected_individuals : List (ℚ × Int))
    (i : Nat) : Option (List (ℚ × Int)) :=
  match population_arena.get_individual_by_index (i : Int) with
  | none => none
  | some p => some (selected_individuals ++ [((population_arena.read p).fitness, (i : Int))])

def select_individuals (sort : List (ℚ × Int) → List (ℚ × Int))
    (population_arena : BumpAllocator) (nr_individuals : Int)
    (selected_individuals : List (ℚ × Int)) : Option (List (ℚ × Int)) :=
  let total := population_arena.items
  if nr_individuals ≤ total then
    match (List.range total.toNat).foldlM (select_entry population_arena)
        selected_individuals with
    | none => none
    | some sel => some (sort sel)
  else none

/-- The (fitness, index) pairs of the candidates `0, …, items - 1`, in index order. -/
def fitness_entries (arena : BumpAllocator) : List (ℚ × Int) :=
  (List.range arena.items.toNat).map
    (fun (i : Nat) => ((arena.buffer ((i : Int) * sizeof_Individual)).fitness, (i : Int)))

/-! ## Reproduction -/

/-- The lambda `mix`: one call of `rand()`. -/
def mix (src : Nat → Nat) (pos : Nat) (a b : Bool) : Bool × Nat :=
  (if src pos % 2 ≠ 0 then a else b, pos + 1)

/-- The lambda `mutate`: one call of `rand()`; the quotient is taken exactly. -/
def mutate (RAND_MAX : Nat) (mutation_rate : ℚ) (src : Nat → Nat) (pos : Nat)
    (value : Bool) : Bool × Nat :=
  (if (src pos : ℚ) / (RAND_MAX : ℚ) < mutation_rate then !value else value, pos + 1)

/-- One amenity flag of a child: `mutate(mix(a, b))`. -/
def gene (RAND_MAX : Nat) (mutation_rate : ℚ) (src : Nat → Nat) (pos : Nat)
    (a b : Bool) : Bool × Nat :=
  mutate RAND_MAX mutation_rate src (mix src pos a b).2 (mix src pos a b).1

/-- The child the second loop of `crossover` builds from the parents `r1` and
`r2`, from the call of `rand()` that draws `bath_type` on. -/
def crossover_child (RAND_MAX : Nat) (mutation_rate : ℚ) (src : Nat → Nat)
    (r1 r2 : Residence) (pos : Nat) : Individual × Nat :=
  let bath_type := src pos % 3
  let g1 := gene RAND_MAX mutation_rate src (pos + 1) r1.has_sink r2.has_sink
  let g2 := gene RAND_MAX mutation_rate src g1.2 r1.has_dual_sink r2.has_dual_sink
  let g3 := gene RAND_MAX mutation_rate src g2.2 r1.has_curtain r2.has_curtain
  let g4 := gene RAND_MAX mutation_rate src g3.2 r1.has_radiator r2.has_radiator
  let g5 := gene RAND_MAX mutation_rate src g4.2 r1.has_closet r2.has_closet
  let g6 := gene RAND_MAX mutation_rate src g5.2 r1.has_wallsocket r2.has_wallsocket
  let g7 := gene RAND_MAX mutation_rate src g6.2 r1.has_thermostatic r2.has_thermostatic
  ({ residence :=
       { has_shower := decide (bath_type = 0)
         has_bath := decide (bath_type = 1)
         has_bath_and_shower := decide (bath_type = 2)
         has_sink := g1.1
         has_dual_sink := g2.1
         has_curtain := g3.1
         has_radiator := g4.1
         has_closet := g5.1
         has_wallsocket := g6.1
         has_thermostatic := g7.1 }
     fitness := 0 }, g7.2)

/-- The body of the first loop of `crossover`: copy the parent ranked `i`. -/
def crossover_elite (parent_allocator : BumpAllocator) (selected_individuals : List (ℚ × Int))
    (child_allocator : BumpAllocator) (i : Nat) : Option BumpAllocator :=
  match selected_individuals[i]? with
  | none => none
  | some e =>
    match parent_allocator.get_individual_by_index e.2 with
    | none => none
    | some src_ptr =>
      match child_allocator.allocate 1 with
      | none => none
      | some (dst, ca) => some (ca.write dst (parent_allocator.read src_ptr))

/-- The body of the second loop of `crossover`: draw two parents among the first
`N_SURVIVORS` entries and write their child. -/
def crossover_offspring (RAND_MAX : Nat) (mutation_rate : ℚ) (src : Nat → Nat)
    (parent_allocator : BumpAllocator) (selected_individuals : List (ℚ × Int))
    (st : BumpAllocator × Nat) : Option (BumpAllocator × Nat) :=
  match selected_individuals[src st.2 % N_SURVIVORS.toNat]? with
  | none => none
  | some e1 =>
    match selected_individuals[src (st.2 + 1) % N_SURVIVORS.toNat]? with
    | none => none
    | some e2 =>
      match parent_allocator.get_individual_by_index e1.2 with
      | none => none
      | some p1 =>
        match parent_allocator.get_individual_by_index e2.2 with
        | none => none
        | some p2 =>
          match st.1.allocate 1 with
          | none => none
          | some (child, ca) =>
            let c := crossover_child RAND_MAX mutation_rate src
              (parent_allocator.read p1).residence (parent_allocator.read p2).residence (st.2 + 2)
            some (ca.write child c.1, c.2)

/-- The feature vector of the parent a draw `r` of `rand()` selects through the
ranking, as `crossover_offspring` reads it (`p1->residence`).  The first branch is
not reached when the ranking has at least `N_SURVIVORS` entries. -/
def drawn_parent (parent : BumpAllocator) (sel : List (ℚ × Int)) (r : Nat) : Residence :=
  match sel[r % N_SURVIVORS.toNat]? with
  | none => (parent.buffer 0).residence
  | some e => (parent.buffer (e.2 * sizeof_Individual)).residence

def crossover (RAND_MAX : Nat) (mutation_rate : ℚ) (src : Nat → Nat)
    (parent_allocator child_allocator : BumpAllocator)
    (selected_individuals : List (ℚ × Int)) (pos : Nat) : Option (BumpAllocator × Nat) :=
  match (List.range N_SURVIVORS.toNat).foldlM
      (crossover_elite parent_allocator selected_individuals) child_allocator with
  | none => none
  | some ca =>
    let remaining := POPULATION_SIZE - N_SURVIVORS
    (List.range remaining.toNat).foldlM
      (fun st _ => crossover_offspring RAND_MAX mutation_rate src parent_allocator
        selected_individuals st) (ca, pos)

/-! ## The driver -/

/-- The value of the `constexpr float mutation_rate` of `crossover`. -/
def mutation_rate : ℚ := 1 / 20

/-- The variables of `main`, and the candidates it has printed so far. -/
structure Driver where
  current_generation_allocator : BumpAllocator
  next_generation_allocator : BumpAllocator
  selected_individuals : List (ℚ × Int)
  pos : Nat
  printed : List Individual

/-- The candidate `main` prints: the one of the current buffer at the index of
entry 0 of the result sequence. -/
def report (d : Driver) : Option Individual :=
  match d.selected_individuals with
  | [] => none
  | e :: _ =>
    match d.current_generation_allocator.get_individual_by_index e.2 with
    | none => none
    | some p => some (d.current_generation_allocator.read p)

/-- One iteration of the loop of `main`. -/
def generation (sort : List (ℚ × Int) → List (ℚ × Int)) (RAND_MAX : Nat) (src : Nat → Nat)
    (d : Driver) : Option Driver :=
  match calculate_population_fitness d.current_generation_allocator with
  | none => none
  | some cur =>
    match select_individuals sort cur N_SURVIVORS d.selected_individuals with
    | none => none
    | some sel =>
      match crossover RAND_MAX mutation_rate src cur d.next_generation_allocator sel d.pos with
      | none => none
      | some (nxt, pos) =>
        let d1 : Driver :=
          { current_generation_allocator := nxt
            next_generation_allocator := cur.reset
            selected_individuals := sel
            pos := pos
            printed := d.printed }
        match report d1 with
        | none => none
        | some ind => some { d1 with printed := d1.printed ++ [ind] }

/-- The state of `main` when the loop starts: both buffers initialised, the
first one filled with random candidates. -/
def main_init (src : Nat → Nat) (memA memB : Int → Individual) : Option Driver :=
  match generate_random_individuals src (BumpAllocator.init memA POPULATION_SIZE)
      POPULATION_SIZE 0 with
  | none => none
  | some (cur, pos) =>
    some { current_generation_allocator := cur
           next_generation_allocator := BumpAllocator.init memB POPULATION_SIZE
           selected_individuals := []
           pos := pos
           printed := [] }

/-- The loop of `main`, `n` iterations. -/
def generations (sort : List (ℚ × Int) → List (ℚ × Int)) (RAND_MAX : Nat) (src : Nat → Nat) :
    Nat → Driver → Option Driver
  | 0, d => some d
  | n + 1, d =>
    match generation sort RAND_MAX src d with
    | none => none
    | some d1 => generations sort RAND_MAX src n d1

/-- The last pass of `main`: evaluate, select one, print. -/
def finalize (sort : List (ℚ × Int) → List (ℚ × Int)) (d : Driver) : Option Driver :=
  match calculate_population_fitness d.current_generation_allocator with
  | none => none
  | some cur =>
    match select_individuals sort cur 1 d.selected_individuals with
    | none => none
    | some sel =>
      let d1 : Driver :=
        { d with current_generation_allocator := cur, selected_individuals := sel }
      match report d1 with
      | none => none
      | some ind => some { d1 with printed := d1.printed ++ [ind] }

def main (sort : List (ℚ × Int) → List (ℚ × Int)) (RAND_MAX : Nat) (src : Nat → Nat)
    (memA memB : Int → Individual) : Option Driver :=
  match main_init src memA memB with
  | none => none
  | some d0 =>
    match generations sort RAND_MAX src GENERATIONS d0 with
    | none => none
    | some d => finalize sort d

/-! ## Concrete inputs -/

/-- A storage content: every position holds the all-false candidate. -/
def mem0 : Int → Individual :=
  fun _ => ⟨⟨false, false, false, false, false, false, false, false, false, false⟩, 0⟩

/-- A feature vector of the specification: shower, closet, radiator, wall socket,
thermostatic valve. -/
def shower_four : Residence :=
  ⟨true, false, false, false, false, false, true, true, true, true⟩

/-- A feature vector of the specification: bath and shower, closet, radiator. -/
def combo_two : Residence :=
  ⟨false, false, true, false, false, false, true, true, false, false⟩

/-- The population of the selection scenario: four candidates with fitness
4, 6, 7 and 4.5. -/
def scenario_arena : BumpAllocator :=
  { buffer := fun q =>
      if q = 0 * sizeof_Individual then ⟨shower_four, 4⟩
      else if q = 1 * sizeof_Individual then ⟨shower_four, 6⟩
      else if q = 2 * sizeof_Individual then ⟨shower_four, 7⟩
      else ⟨shower_four, 9 / 2⟩
    capacity := 4
    items := 4 }

/-- A random source whose every call of `rand()` returns 0. -/
def zsrc : Nat → Nat := fun _ => 0

/-- A full parent population: 32 all-false candidates. -/
def parent32 : BumpAllocator := { buffer := mem0, capacity := 32, items := 32 }

/-- A ranking of length 16 with the indices 0, …, 15. -/
def ranking16 : List (ℚ × Int) := (List.range 16).map (fun (i : Nat) => ((0 : ℚ), (i : Int)))

/-- Shower and nothing else: scores 4. -/
def plain_shower : Residence :=
  ⟨true, false, false, false, false, false, false, false, false, false⟩

/-- Shower and all seven amenities: scores 8. -/
def full_shower : Residence :=
  ⟨true, false, false, true, true, true, true, true, true, true⟩

/-- Bath and shower and all seven amenities: scores 14. -/
def full_combo : Residence :=
  ⟨false, false, true, true, true, true, true, true, true, true⟩

/-- A random source.  Calls 0 to 255 build the first population: candidates 0 to
30 are `plain_shower`, candidate 31 is `full_combo`.  Calls 256 to 527 are those of
the first `crossover`: the first fifteen children draw both parents at rank 1 and
get every amenity flipped, the sixteenth draws both at rank 0 and gets every
amenity flipped.  All later calls return 0. -/
def csrc : Nat → Nat := fun n =>
  if 248 ≤ n ∧ n < 256 then 5
  else if 256 ≤ n ∧ n < 256 + 15 * 17 ∧ (n - 256) % 17 < 2 then 1
  else 0

/-- The feature vectors of the second generation under `csrc`. -/
def second_residence (i : Int) : Residence :=
  if i = 0 then full_combo
  else if i < 16 then plain_shower
  else if i < 31 then full_shower
  else plain_shower

/-- The pairs of the first generation under `csrc`, best first. -/
def first_entries : List (ℚ × Int) :=
  (14, 31) :: (List.range 31).map (fun (i : Nat) => ((4 : ℚ), (i : Int)))

/-- The pairs of the second generation under `csrc`, in index order. -/
def second_entries : List (ℚ × Int) :=
  (List.range 32).map
    (fun (i : Nat) => (calculate_residence_points (second_residence (i : Int)), (i : Int)))

/-- The candidates of the second generation under `csrc` that score more than
candidate 31: candidate 0 (14 points) and candidates 16 to 30 (8 points each). -/
def better_candidates : List Int :=
  0 :: (List.range 15).map (fun (i : Nat) => (16 + (i : Int)))

/-! ## Further notions and inputs -/

/-- A store of capacity 32 with two candidates allocated. -/
def store_two : BumpAllocator := { buffer := mem0, capacity := 32, items := 2 }

/-- A target that is not empty but has room for 32 more candidates. -/
def roomy_target : BumpAllocator := { buffer := mem0, capacity := 64, items := 1 }

/-- C1: for a feature vector with exactly one bathing-fixture flag set,
`calculate_residence_points` returns min(base + amenities, 2 × base) with the
base scores and amenity weights of the specification; the two scenario vectors
score 8 and 10.5. -/
theorem points_eq_capped_sum (r : Residence) (h : one_fixture r) :
    calculate_residence_points r = min (spec_base r + spec_amenities r) (2 * spec_base r)
      ∧ calculate_residence_points shower_four = 8
      ∧ calculate_residence_points combo_two = 21 / 2 := by
  obtain ⟨a, b, c, d, e, f, g, h1, i, j⟩ := r
  revert h
  revert a b c d e f g h1 i j
  decide!

theorem points_eq_capped_sum_witness :
    one_fixture shower_four ∧
      (calculate_residence_points shower_four
          = min (spec_base shower_four + spec_amenities shower_four) (2 * spec_base shower_four)
        ∧ calculate_residence_points shower_four = 8
        ∧ calculate_residence_points combo_two = 21 / 2) :=
  ⟨by decide, points_eq_capped_sum shower_four (by decide)⟩

/-- C8: for every feature vector, also one that breaks the fixture invariant, the
score lies between the bathing-fixture score and twice that score, and the
bathing-fixture score is 7, 6, 4 or 0. -/
theorem points_between_base_and_double (r : Residence) :
    bath_shower_points r ≤ calculate_residence_points r
      ∧ calculate_residence_points r ≤ 2 * bath_shower_points r
      ∧ (bath_shower_points r = 7 ∨ bath_shower_points r = 6
          ∨ bath_shower_points r = 4 ∨ bath_shower_points r = 0) := by
  obtain ⟨a, b, c, d, e, f, g, h1, i, j⟩ := r
  revert a b c d e f g h1 i j
  decide!

/-! ## The population store: theorems -/

/-- C9 (the code at the boundary): `get_individual_by_index` asserts
`index <= items`, so it fails exactly for an index above the fill count; the
index equal to the fill count passes the assertion, and on a freshly initialised,
empty store index 0 is accepted. -/
theorem get_at_fill_count_succeeds (a : BumpAllocator) (i : Int) (mem : Int → Individual) :
    (a.get_individual_by_index i = none ↔ a.items < i)
      ∧ a.get_individual_by_index a.items = some (a.items * sizeof_Individual)
      ∧ (BumpAllocator.init mem 32).get_individual_by_index 0 = some 0 := by
  refine ⟨?_, ?_, ?_⟩
  · unfold BumpAllocator.get_individual_by_index
    split <;> simp <;> omega
  · simp [BumpAllocator.get_individual_by_index]
  · simp [BumpAllocator.get_individual_by_index, BumpAllocator.init]

theorem sizeof_Individual_pos : 0 < sizeof_Individual := by decide

theorem position_inj {i j : Int} :
    i * sizeof_Individual = j * sizeof_Individual ↔ i = j := by
  constructor
  · intro h
    exact Int.eq_of_mul_eq_mul_right (ne_of_gt sizeof_Individual_pos) h
  · intro h; rw [h]

theorem N_SURVIVORS_toNat : N_SURVIVORS.toNat = 16 := by decide

theorem remaining_toNat : (POPULATION_SIZE - N_SURVIVORS).toNat = 16 := by decide

/-- Unrolling the last iteration of a loop over `0, …, n`. -/
theorem foldlM_range_succ {σ : Type} (f : σ → Nat → Option σ) (init : σ) (n : Nat) :
    (List.range (n + 1)).foldlM f init
      = ((List.range n).foldlM f init).bind (fun s => f s n) := by
  rw [List.range_succ, List.foldlM_append]
  simp

/-- The first loop of `crossover`, run for `k` iterations on a target with room
for them and a ranking whose first `k` indices pass the parent's assertion. -/
theorem elite_loop (parent : BumpAllocator) (sel : List (ℚ × Int)) (c0 : BumpAllocator) :
    ∀ k : Nat, (∀ i e, i < k → sel[i]? = some e → e.2 ≤ parent.items) → k ≤ sel.length →
      c0.items + k ≤ c0.capacity →
      ∃ c, (List.range k).foldlM (crossover_elite parent sel) c0 = some c
        ∧ c.items = c0.items + k ∧ c.capacity = c0.capacity
        ∧ (∀ i e, i < k → sel[i]? = some e →
            c.buffer ((c0.items + i) * sizeof_Individual)
              = parent.buffer (e.2 * sizeof_Individual))
        ∧ (∀ q, (∀ i : Nat, i < k → q ≠ (c0.items + i) * sizeof_Individual) →
            c.buffer q = c0.buffer q) := by
  intro k
  induction k with
  | zero =>
    intro _ _ _
    exact ⟨c0, by simp, by simp, rfl, by simp, by simp⟩
  | succ k ih =>
    intro hidx hlen hcap
    obtain ⟨c, hc, hitems, hcapc, helite, hframe⟩ :=
      ih (fun i e hi he => hidx i e (by omega) he) (by omega) (by push_cast at hcap; omega)
    have hk : k < sel.length := by omega
    have hget : sel[k]? = some sel[k] := List.getElem?_eq_getElem hk
    have hle : sel[k].2 ≤ parent.items := hidx k _ (by omega) hget
    have halloc : c.items + 1 ≤ c.capacity := by
      rw [hitems, hcapc]; push_cast at hcap; omega
    refine ⟨(⟨c.buffer, c.capacity, c.items + 1⟩ : BumpAllocator).write
      (c.items * sizeof_Individual) (parent.read (sel[k].2 * sizeof_Individual)), ?_, ?_, ?_, ?_, ?_⟩
    · rw [foldlM_range_succ, hc]
      simp [crossover_elite, hget, BumpAllocator.get_individual_by_index, hle,
        BumpAllocator.allocate, halloc]
    · simp [BumpAllocator.write, hitems]; omega
    · simp [BumpAllocator.write, hcapc]
    · intro i e hi he
      by_cases hik : i = k
      · subst hik
        rw [hget] at he
        cases he
        simp [BumpAllocator.write, BumpAllocator.read, hitems]
      · have hlt : i < k := by omega
        have hne : (c0.items + (i : Int)) * sizeof_Individual ≠ c.items * sizeof_Individual := by
          rw [Ne, position_inj, hitems]; omega
        simp only [BumpAllocator.write, hne, if_false]
        exact helite i e hlt he
    · intro q hq
      have hne : q ≠ c.items * sizeof_Individual := by
        rw [hitems]; exact hq k (by omega)
      simp only [BumpAllocator.write, hne, if_false]
      exact hframe q (fun i hi => hq i (by omega))

/-! ## Reproduction: auxiliary facts -/

theorem crossover_child_pos (RAND_MAX : Nat) (rate : ℚ) (src : Nat → Nat) (r1 r2 : Residence)
    (pos : Nat) : (crossover_child RAND_MAX rate src r1 r2 pos).2 = pos + 15 := by
  simp [crossover_child, gene, mutate, mix]

/-- The second loop of `crossover`, run for `k` iterations. -/
theorem offspring_loop (RAND_MAX : Nat) (rate : ℚ) (src : Nat → Nat) (parent : BumpAllocator)
    (sel : List (ℚ × Int)) (c0 : BumpAllocator) (pos0 : Nat)
    (hlen : 16 ≤ sel.length)
    (hidx : ∀ i e, i < 16 → sel[i]? = some e → e.2 ≤ parent.items) :
    ∀ k : Nat, c0.items + k ≤ c0.capacity →
      ∃ c, (List.range k).foldlM
            (fun st _ => crossover_offspring RAND_MAX rate src parent sel st) (c0, pos0)
          = some (c, pos0 + 17 * k)
        ∧ c.items = c0.items + k ∧ c.capacity = c0.capacity
        ∧ (∀ j : Nat, j < k →
            c.buffer ((c0.items + j) * sizeof_Individual)
              = (crossover_child RAND_MAX rate src
                  (drawn_parent parent sel (src (pos0 + 17 * j)))
                  (drawn_parent parent sel (src (pos0 + 17 * j + 1)))
                  (pos0 + 17 * j + 2)).1)
        ∧ (∀ q, (∀ j : Nat, j < k → q ≠ (c0.items + j) * sizeof_Individual) →
            c.buffer q = c0.buffer q) := by
  intro k
  induction k with
  | zero =>
    intro _
    exact ⟨c0, by simp, by simp, rfl, by simp, by simp⟩
  | succ k ih =>
    intro hcap
    obtain ⟨c, hc, hitems, hcapc, hchild, hframe⟩ := ih (by push_cast at hcap; omega)
    have hm1 : src (pos0 + 17 * k) % 16 < sel.length :=
      lt_of_lt_of_le (Nat.mod_lt _ (by decide)) hlen
    have hm2 : src (pos0 + 17 * k + 1) % 16 < sel.length :=
      lt_of_lt_of_le (Nat.mod_lt _ (by decide)) hlen
    have hg1 := List.getElem?_eq_getElem hm1
    have hg2 := List.getElem?_eq_getElem hm2
    have hle1 := hidx _ _ (Nat.mod_lt (src (pos0 + 17 * k)) (by decide)) hg1
    have hle2 := hidx _ _ (Nat.mod_lt (src (pos0 + 17 * k + 1)) (by decide)) hg2
    have halloc : c.items + 1 ≤ c.capacity := by
      rw [hitems, hcapc]; push_cast at hcap; omega
    refine ⟨(⟨c.buffer, c.capacity, c.items + 1⟩ : BumpAllocator).write
      (c.items * sizeof_Individual)
      (crossover_child RAND_MAX rate src
        (drawn_parent parent sel (src (pos0 + 17 * k)))
        (drawn_parent parent sel (src (pos0 + 17 * k + 1))) (pos0 + 17 * k + 2)).1,
      ?_, ?_, ?_, ?_, ?_⟩
    · rw [foldlM_range_succ, hc]
      simp [crossover_offspring, N_SURVIVORS_toNat, hg1, hg2,
        BumpAllocator.get_individual_by_index, hle1, hle2, BumpAllocator.allocate, halloc,
        crossover_child_pos, drawn_parent, BumpAllocator.read]
      omega
    · simp [BumpAllocator.write, hitems]; omega
    · simp [BumpAllocator.write, hcapc]
    · intro j hj
      by_cases hjk : j = k
      · subst hjk
        simp [BumpAllocator.write, hitems]
      · have hlt : j < k := by omega
        have hne : (c0.items + (j : Int)) * sizeof_Individual ≠ c.items * sizeof_Individual := by
          rw [Ne, position_inj, hitems]; omega
        simp only [BumpAllocator.write, hne, if_false]
        exact hchild j hlt
    · intro q hq
      have hne : q ≠ c.items * sizeof_Individual := by
        rw [hitems]; exact hq k (by omega)
      simp only [BumpAllocator.write, hne, if_false]
      exact hframe q (fun j hj => hq j (by omega))

/-- What `crossover` does on a target with room for `POPULATION_SIZE` more
candidates and a ranking whose first `N_SURVIVORS` indices pass the parent's
assertion: it succeeds, makes 272 calls of `rand()`, and fills the next 32 slots
with the 16 ranked parents and 16 children. -/
theorem crossover_spec (RAND_MAX : Nat) (rate : ℚ) (src : Nat → Nat)
    (parent child : BumpAllocator) (sel : List (ℚ × Int)) (pos : Nat)
    (hlen : 16 ≤ sel.length)
    (hidx : ∀ i e, i < 16 → sel[i]? = some e → e.2 ≤ parent.items)
    (hcap : child.items + 32 ≤ child.capacity) :
    ∃ c, crossover RAND_MAX rate src parent child sel pos = some (c, pos + 272)
      ∧ c.items = child.items + 32 ∧ c.capacity = child.capacity
      ∧ (∀ (i : Nat) (e : ℚ × Int), i < 16 → sel[i]? = some e →
          c.buffer ((child.items + i) * sizeof_Individual)
            = parent.buffer (e.2 * sizeof_Individual))
      ∧ (∀ j : Nat, j < 16 →
          c.buffer ((child.items + 16 + j) * sizeof_Individual)
            = (crossover_child RAND_MAX rate src
                (drawn_parent parent sel (src (pos + 17 * j)))
                (drawn_parent parent sel (src (pos + 17 * j + 1)))
                (pos + 17 * j + 2)).1)
      ∧ (∀ q, (∀ i : Nat, i < 32 → q ≠ (child.items + i) * sizeof_Individual) →
          c.buffer q = child.buffer q) := by
  obtain ⟨c1, hc1, hit1, hcap1, hel1, hfr1⟩ :=
    elite_loop parent sel child 16 hidx hlen (by push_cast; omega)
  obtain ⟨c2, hc2, hit2, hcap2, hch2, hfr2⟩ :=
    offspring_loop RAND_MAX rate src parent sel c1 pos hlen hidx 16
      (by rw [hit1, hcap1]; push_cast; omega)
  refine ⟨c2, ?_, ?_, ?_, ?_, ?_, ?_⟩
  · simp only [crossover, N_SURVIVORS_toNat, remaining_toNat, hc1, hc2]
  · rw [hit2, hit1]; push_cast; omega
  · rw [hcap2, hcap1]
  · intro i e hi he
    rw [hfr2, hel1 i e hi he]
    intro j hj
    rw [Ne, position_inj, hit1]; push_cast; omega
  · intro j hj
    have := hch2 j hj
    rw [hit1] at this
    exact this
  · intro q hq
    rw [hfr2, hfr1]
    · intro i hi; exact hq i (by omega)
    · intro j hj
      have := hq (16 + j) (by omega)
      rw [hit1]
      push_cast at this ⊢
      rw [← add_assoc] at this
      exact this

/-! ## Selection: theorems -/

theorem select_loop (arena : BumpAllocator) (sel0 : List (ℚ × Int)) :
    ∀ n : Nat, (n : Int) ≤ arena.items →
      (List.range n).foldlM (select_entry arena) sel0
        = some (sel0 ++ (List.range n).map
            (fun (i : Nat) =>
              ((arena.buffer ((i : Int) * sizeof_Individual)).fitness, (i : Int)))) := by
  intro n
  induction n with
  | zero => intro _; simp
  | succ n ih =>
    intro hn
    have hle : (n : Int) ≤ arena.items := by push_cast at hn; omega
    rw [foldlM_range_succ, ih hle]
    simp [select_entry, BumpAllocator.get_individual_by_index, hle, BumpAllocator.read,
      List.range_succ]

/-- What `select_individuals` returns: the old content of the result sequence
followed by one pair per candidate, sorted as a whole. -/
theorem select_spec (sort : List (ℚ × Int) → List (ℚ × Int)) (arena : BumpAllocator)
    (nr : Int) (sel0 : List (ℚ × Int)) (hnr : nr ≤ arena.items) (h0 : 0 ≤ arena.items) :
    select_individuals sort arena nr sel0 = some (sort (sel0 ++ fitness_entries arena)) := by
  have hle : ((arena.items.toNat : Nat) : Int) ≤ arena.items := by omega
  simp only [select_individuals, hnr, if_true, select_loop arena sel0 _ hle, fitness_entries]

theorem mem_fitness_entries {arena : BumpAllocator} {e : ℚ × Int} :
    e ∈ fitness_entries arena ↔
      0 ≤ e.2 ∧ e.2 < arena.items ∧ e.1 = (arena.buffer (e.2 * sizeof_Individual)).fitness := by
  unfold fitness_entries
  simp only [List.mem_map, List.mem_range]
  constructor
  · rintro ⟨i, hi, rfl⟩
    exact ⟨by simp, by simp; omega, rfl⟩
  · rintro ⟨h0, hlt, hf⟩
    refine ⟨e.2.toNat, by omega, ?_⟩
    have : ((e.2.toNat : Nat) : Int) = e.2 := by omega
    rw [this, ← hf]

theorem fitness_entries_length (arena : BumpAllocator) :
    (fitness_entries arena).length = arena.items.toNat := by
  simp [fitness_entries]

theorem fitness_entries_snd_nodup (arena : BumpAllocator) :
    ((fitness_entries arena).map Prod.snd).Nodup := by
  unfold fitness_entries
  rw [List.map_map]
  have : (Prod.snd ∘ fun (i : Nat) =>
      ((arena.buffer ((i : Int) * sizeof_Individual)).fitness, (i : Int)))
        = fun (i : Nat) => (i : Int) := by
    funext i; rfl
  rw [this]
  exact (List.nodup_range _).map (fun a b h => by exact_mod_cast h)

/-- In a sequence ordered by the comparator, no entry after the first `k`
compares before one of the first `k`. -/
theorem take_ge_drop {out : List (ℚ × Int)} (hs : out.Pairwise (fun a b => ¬ (b.1 > a.1)))
    (k : Nat) : ∀ a ∈ out.take k, ∀ b ∈ out.drop k, b.1 ≤ a.1 := by
  intro a ha b hb
  have h := hs
  rw [← List.take_append_drop k out, List.pairwise_append] at h
  exact not_lt.mp (h.2.2 a ha b hb)

/-- The head of a sorted permutation is the entry that strictly beats all others. -/
theorem sorted_perm_head {out rest : List (ℚ × Int)} {e : ℚ × Int}
    (hp : out.Perm (e :: rest)) (hs : out.Pairwise (fun a b => ¬ (b.1 > a.1)))
    (hmax : ∀ x ∈ rest, x.1 < e.1) :
    ∃ t, out = e :: t ∧ t.Perm rest ∧ t.Pairwise (fun a b => ¬ (b.1 > a.1)) := by
  cases out with
  | nil => simpa using hp.length_eq
  | cons a t =>
    have hae : a = e := by
      by_contra hne
      have ha : a ∈ rest := by
        rcases List.mem_cons.mp (hp.subset (List.mem_cons_self a t)) with h | h
        · exact absurd h hne
        · exact h
      have het : e ∈ t := by
        rcases List.mem_cons.mp (hp.symm.subset (List.mem_cons_self e rest)) with h | h
        · exact absurd h.symm hne
        · exact h
      exact (List.pairwise_cons.mp hs).1 e het (hmax a ha)
    subst hae
    exact ⟨t, rfl, hp.cons_inv, (List.pairwise_cons.mp hs).2⟩

theorem scenario_entries :
    fitness_entries scenario_arena = [(4, 0), (6, 1), (7, 2), (9 / 2, 3)] := by
  decide!

theorem scenario_top_two (sort : List (ℚ × Int) → List (ℚ × Int)) (hsort : IsStdSort sort) :
    (sort (fitness_entries scenario_arena)).take 2 = [(7, 2), (6, 1)] := by
  obtain ⟨hp, hs⟩ := hsort (fitness_entries scenario_arena)
  rw [scenario_entries] at hp hs ⊢
  have hp1 : (sort [(4, 0), (6, 1), (7, 2), (9 / 2, 3)]).Perm
      ((7, 2) :: [((6 : ℚ), (1 : Int)), (9 / 2, 3), (4, 0)]) :=
    hp.trans (by decide!)
  obtain ⟨t, ht, hpt, hst⟩ := sorted_perm_head hp1 hs (by
    intro x hx
    simp only [List.mem_cons, List.mem_singleton, List.not_mem_nil, or_false] at hx
    rcases hx with rfl | rfl | rfl <;> norm_num)
  obtain ⟨t2, ht2, _, _⟩ := sorted_perm_head hpt hst (by
    intro x hx
    simp only [List.mem_cons, List.mem_singleton, List.not_mem_nil, or_false] at hx
    rcases hx with rfl | rfl <;> norm_num)
  rw [ht, ht2]
  rfl

/-- C2: called with an empty result sequence on a population of N candidates and
K ≤ N, `select_individuals` succeeds and the first K entries it writes are pairs of
K distinct candidates, each with that candidate's own fitness, in descending order
of fitness, and no candidate outside them has a strictly greater fitness than one
of them; in the scenario (fitness 4, 6, 7, 4.5, K = 2) they are (7, 2), (6, 1). -/
theorem select_first_entries (sort : List (ℚ × Int) → List (ℚ × Int)) (hsort : IsStdSort sort)
    (arena : BumpAllocator) (N K : Nat) (hN : arena.items = (N : Int)) (hK : K ≤ N) :
    (∃ out, select_individuals sort arena (K : Int) [] = some out
      ∧ (out.take K).length = K
      ∧ (∀ e ∈ out.take K, 0 ≤ e.2 ∧ e.2 < (N : Int)
          ∧ ∃ ind, arena.individual e.2 = some ind ∧ ind.fitness = e.1)
      ∧ ((out.take K).map Prod.snd).Nodup
      ∧ (out.take K).Pairwise (fun a b => a.1 ≥ b.1)
      ∧ (∀ (j : Int) (ind : Individual), 0 ≤ j → j < (N : Int) →
          j ∉ (out.take K).map Prod.snd → arena.individual j = some ind →
          ∀ e ∈ out.take K, ¬ (ind.fitness > e.1)))
    ∧ (∃ out, select_individuals sort scenario_arena 2 [] = some out
        ∧ out.take 2 = [(7, 2), (6, 1)]) := by
  constructor
  · have hspec := select_spec sort arena (K : Int) [] (by rw [hN]; exact_mod_cast hK)
      (by rw [hN]; exact Int.natCast_nonneg N)
    rw [List.nil_append] at hspec
    obtain ⟨hp, hs⟩ := hsort (fitness_entries arena)
    have hlen : (sort (fitness_entries arena)).length = N := by
      rw [hp.length_eq, fitness_entries_length, hN]; simp
    have hmem : ∀ e ∈ (sort (fitness_entries arena)).take K, e ∈ fitness_entries arena :=
      fun e he => hp.subset (List.mem_of_mem_take he)
    refine ⟨_, hspec, ?_, ?_, ?_, ?_, ?_⟩
    · rw [List.length_take, hlen]; omega
    · intro e he
      obtain ⟨h0, hlt, hf⟩ := mem_fitness_entries.mp (hmem e he)
      refine ⟨h0, by rw [← hN]; exact hlt, arena.buffer (e.2 * sizeof_Individual), ?_, hf.symm⟩
      simp [BumpAllocator.individual, BumpAllocator.get_individual_by_index, le_of_lt hlt,
        BumpAllocator.read]
    · have hnd : ((sort (fitness_entries arena)).map Prod.snd).Nodup :=
        (hp.map Prod.snd).nodup_iff.mpr (fitness_entries_snd_nodup arena)
      exact hnd.sublist ((List.take_sublist K _).map Prod.snd)
    · exact (hs.imp (fun h => not_lt.mp h)).sublist (List.take_sublist K _)
    · intro j ind hj0 hjN hnot hind e he
      have hjle : j ≤ arena.items := by rw [hN]; omega
      have hind2 : ind = arena.buffer (j * sizeof_Individual) := by
        simp [BumpAllocator.individual, BumpAllocator.get_individual_by_index, hjle,
          BumpAllocator.read] at hind
        exact hind.symm
      have hjmem : (ind.fitness, j) ∈ fitness_entries arena := by
        rw [mem_fitness_entries]
        exact ⟨hj0, by rw [hN]; exact hjN, by rw [hind2]⟩
      have hjout : (ind.fitness, j) ∈ sort (fitness_entries arena) := hp.symm.subset hjmem
      rw [← List.take_append_drop K (sort (fitness_entries arena)), List.mem_append] at hjout
      rcases hjout with h | h
      · exact absurd (List.mem_map_of_mem Prod.snd h) hnot
      · exact not_lt.mpr (take_ge_drop hs K e he _ h)
  · refine ⟨_, select_spec sort scenario_arena 2 [] (by decide) (by decide), ?_⟩
    rw [List.nil_append]
    exact scenario_top_two sort hsort

/-- Insertion sort meets the postcondition of `std::sort`. -/
theorem stable_sort_isStdSort : IsStdSort stable_sort := by
  intro l
  refine ⟨List.perm_insertionSort _ l, ?_⟩
  have h := List.sorted_insertionSort (fun (a b : ℚ × Int) => a.1 ≥ b.1) l
  exact List.Pairwise.imp (fun hab => not_lt.mpr hab) h

theorem select_first_entries_witness :
    IsStdSort stable_sort ∧ scenario_arena.items = ((4 : Nat) : Int) ∧ 2 ≤ 4 ∧
    ((∃ out, select_individuals stable_sort scenario_arena ((2 : Nat) : Int) [] = some out
      ∧ (out.take 2).length = 2
      ∧ (∀ e ∈ out.take 2, 0 ≤ e.2 ∧ e.2 < ((4 : Nat) : Int)
          ∧ ∃ ind, scenario_arena.individual e.2 = some ind ∧ ind.fitness = e.1)
      ∧ ((out.take 2).map Prod.snd).Nodup
      ∧ (out.take 2).Pairwise (fun a b => a.1 ≥ b.1)
      ∧ (∀ (j : Int) (ind : Individual), 0 ≤ j → j < ((4 : Nat) : Int) →
          j ∉ (out.take 2).map Prod.snd → scenario_arena.individual j = some ind →
          ∀ e ∈ out.take 2, ¬ (ind.fitness > e.1)))
    ∧ (∃ out, select_individuals stable_sort scenario_arena 2 [] = some out
        ∧ out.take 2 = [(7, 2), (6, 1)])) :=
  ⟨stable_sort_isStdSort, rfl, by decide,
    select_first_entries stable_sort stable_sort_isStdSort scenario_arena 4 2 rfl (by decide)⟩

/-- C3 (the code at the failing input): `select_individuals` appends one pair per
candidate and never shortens the sequence, so on an empty result sequence it
returns as many entries as the population has candidates, whatever the requested
count; in the scenario with K = 2 the result has 4 entries. -/
theorem select_result_has_population_length (sort : List (ℚ × Int) → List (ℚ × Int))
    (hsort : IsStdSort sort) (arena : BumpAllocator) (N K : Nat)
    (hN : arena.items = (N : Int)) (hK : K ≤ N) :
    (∃ out, select_individuals sort arena (K : Int) [] = some out ∧ out.length = N)
      ∧ (∃ out, select_individuals sort scenario_arena 2 [] = some out ∧ out.length = 4) := by
  have key : ∀ (a : BumpAllocator) (n k : Nat), a.items = (n : Int) → k ≤ n →
      ∃ out, select_individuals sort a (k : Int) [] = some out ∧ out.length = n := by
    intro a n k hn hk
    refine ⟨_, select_spec sort a (k : Int) [] (by rw [hn]; exact_mod_cast hk)
      (by rw [hn]; exact Int.natCast_nonneg n), ?_⟩
    rw [List.nil_append, (hsort _).1.length_eq, fitness_entries_length, hn]
    simp
  exact ⟨key arena N K hN hK, key scenario_arena 4 2 rfl (by decide)⟩

theorem select_result_has_population_length_witness :
    IsStdSort stable_sort ∧ scenario_arena.items = ((4 : Nat) : Int) ∧ 2 ≤ 4 ∧
      ((∃ out, select_individuals stable_sort scenario_arena ((2 : Nat) : Int) [] = some out
          ∧ out.length = 4)
        ∧ (∃ out, select_individuals stable_sort scenario_arena 2 [] = some out
          ∧ out.length = 4)) :=
  ⟨stable_sort_isStdSort, rfl, by decide,
    select_result_has_population_length stable_sort stable_sort_isStdSort scenario_arena 4 2 rfl
      (by decide)⟩

/-! ## Reproduction: theorems -/

theorem individual_eq (a : BumpAllocator) (i : Int) (h : i ≤ a.items) :
    a.individual i = some (a.buffer (i * sizeof_Individual)) := by
  simp [BumpAllocator.individual, BumpAllocator.get_individual_by_index, h, BumpAllocator.read]

theorem ranking16_valid : ∀ e ∈ ranking16, 0 ≤ e.2 ∧ e.2 < parent32.items := by
  intro e he
  simp only [ranking16, List.mem_map, List.mem_range] at he
  obtain ⟨i, hi, rfl⟩ := he
  exact ⟨Int.natCast_nonneg i, by show (i : Int) < 32; omega⟩

theorem random_individual_one_fixture (src : Nat → Nat) (pos : Nat) :
    one_fixture (random_individual src pos).residence := by
  have h : src pos % 3 < 3 := Nat.mod_lt _ (by decide)
  unfold one_fixture random_individual
  simp only [decide_eq_true_eq, decide_eq_false_iff_not]
  omega

theorem crossover_child_one_fixture (RAND_MAX : Nat) (rate : ℚ) (src : Nat → Nat)
    (r1 r2 : Residence) (pos : Nat) :
    one_fixture (crossover_child RAND_MAX rate src r1 r2 pos).1.residence := by
  have h : src pos % 3 < 3 := Nat.mod_lt _ (by decide)
  unfold one_fixture crossover_child
  simp only [decide_eq_true_eq, decide_eq_false_iff_not]
  omega

/-- C5: the candidate `generate_random_individual` writes, the child `crossover`
builds from any two parents, and every candidate in the slots N_SURVIVORS, …,
POPULATION_SIZE - 1 of the target after `crossover` have exactly one of the three
bathing-fixture flags set. -/
theorem written_candidates_have_one_fixture (RAND_MAX : Nat) (rate : ℚ) (src : Nat → Nat)
    (pa : BumpAllocator) (gpos : Nat) (r1 r2 : Residence) (cpos : Nat)
    (parent child : BumpAllocator) (sel : List (ℚ × Int)) (pos : Nat)
    (hroom : pa.items + 1 ≤ pa.capacity)
    (hlen : N_SURVIVORS.toNat ≤ sel.length)
    (hvalid : ∀ e ∈ sel, 0 ≤ e.2 ∧ e.2 < parent.items)
    (hempty : child.items = 0) (hcap : POPULATION_SIZE ≤ child.capacity) :
    (∃ pa1 ind, generate_random_individual src pa gpos = some (pa1, gpos + 8)
        ∧ pa1.individual pa.items = some ind ∧ one_fixture ind.residence)
      ∧ one_fixture (crossover_child RAND_MAX rate src r1 r2 cpos).1.residence
      ∧ ∃ c p1, crossover RAND_MAX rate src parent child sel pos = some (c, p1)
          ∧ ∀ j : Int, N_SURVIVORS ≤ j → j < POPULATION_SIZE →
              ∃ ind, c.individual j = some ind ∧ one_fixture ind.residence := by
  refine ⟨?_, crossover_child_one_fixture RAND_MAX rate src r1 r2 cpos, ?_⟩
  · refine ⟨(⟨pa.buffer, pa.capacity, pa.items + 1⟩ : BumpAllocator).write
      (pa.items * sizeof_Individual) (random_individual src gpos), random_individual src gpos,
      ?_, ?_, random_individual_one_fixture src gpos⟩
    · simp [generate_random_individual, BumpAllocator.allocate, hroom]
    · simp [BumpAllocator.individual, BumpAllocator.get_individual_by_index,
        BumpAllocator.write, BumpAllocator.read]
  · have hidx : ∀ i e, i < 16 → sel[i]? = some e → e.2 ≤ parent.items := by
      intro i e _ he
      exact le_of_lt (hvalid e (List.getElem?_mem he)).2
    rw [N_SURVIVORS_toNat] at hlen
    obtain ⟨c, hc, hitems, _, _, hchild, _⟩ :=
      crossover_spec RAND_MAX rate src parent child sel pos hlen hidx
        (by rw [hempty]; exact hcap)
    refine ⟨c, pos + 272, hc, ?_⟩
    intro j hj1 hj2
    have h16 : (16 : Int) ≤ j := hj1
    have h32 : j < 32 := hj2
    have hch := hchild (j - 16).toNat (by omega)
    have hcast : (((j - 16).toNat : Nat) : Int) = j - 16 := by omega
    rw [hempty, hcast] at hch
    have hpos : (0 : Int) + 16 + (j - 16) = j := by omega
    rw [hpos] at hch
    refine ⟨_, individual_eq c j (by rw [hitems, hempty]; omega), ?_⟩
    rw [hch]
    exact crossover_child_one_fixture _ _ _ _ _ _

theorem written_candidates_have_one_fixture_witness :
    (BumpAllocator.init mem0 32).items + 1 ≤ (BumpAllocator.init mem0 32).capacity
      ∧ N_SURVIVORS.toNat ≤ ranking16.length
      ∧ (∀ e ∈ ranking16, 0 ≤ e.2 ∧ e.2 < parent32.items)
      ∧ (BumpAllocator.init mem0 32).items = 0
      ∧ POPULATION_SIZE ≤ (BumpAllocator.init mem0 32).capacity
      ∧ ((∃ pa1 ind, generate_random_individual zsrc (BumpAllocator.init mem0 32) 0
              = some (pa1, 0 + 8)
            ∧ pa1.individual (BumpAllocator.init mem0 32).items = some ind
            ∧ one_fixture ind.residence)
        ∧ one_fixture
            (crossover_child 2147483647 mutation_rate zsrc shower_four combo_two 0).1.residence
        ∧ ∃ c p1, crossover 2147483647 mutation_rate zsrc parent32 (BumpAllocator.init mem0 32)
              ranking16 0 = some (c, p1)
            ∧ ∀ j : Int, N_SURVIVORS ≤ j → j < POPULATION_SIZE →
                ∃ ind, c.individual j = some ind ∧ one_fixture ind.residence) :=
  ⟨by decide, by decide, ranking16_valid, rfl, by decide,
    written_candidates_have_one_fixture 2147483647 mutation_rate zsrc
      (BumpAllocator.init mem0 32) 0 shower_four combo_two 0 parent32
      (BumpAllocator.init mem0 32) ranking16 0 (by decide) (by decide) ranking16_valid rfl
      (by decide)⟩

/-! ## Evaluation and the driver: auxiliary facts -/

/-- The candidate after evaluation: same feature vector, fitness recomputed. -/
theorem evaluate_loop (a0 : BumpAllocator) :
    ∀ n : Nat, (n : Int) ≤ a0.items →
      ∃ a, (List.range n).foldlM evaluate_individual a0 = some a
        ∧ a.items = a0.items ∧ a.capacity = a0.capacity
        ∧ (∀ i : Nat, i < n →
            a.buffer ((i : Int) * sizeof_Individual)
              = { residence := (a0.buffer ((i : Int) * sizeof_Individual)).residence
                  fitness := calculate_residence_points
                    (a0.buffer ((i : Int) * sizeof_Individual)).residence })
        ∧ (∀ q, (∀ i : Nat, i < n → q ≠ (i : Int) * sizeof_Individual) →
            a.buffer q = a0.buffer q) := by
  intro n
  induction n with
  | zero =>
    intro _
    exact ⟨a0, by simp, rfl, rfl, by simp, by simp⟩
  | succ n ih =>
    intro hn
    have hle : (n : Int) ≤ a0.items := by push_cast at hn; omega
    obtain ⟨a, ha, hitems, hcap, hval, hframe⟩ := ih hle
    have hle2 : (n : Int) ≤ a.items := by rw [hitems]; exact hle
    have hold : a.buffer ((n : Int) * sizeof_Individual)
        = a0.buffer ((n : Int) * sizeof_Individual) := by
      apply hframe
      intro i hi
      rw [Ne, position_inj]
      omega
    refine ⟨a.write ((n : Int) * sizeof_Individual)
      { residence := (a.read ((n : Int) * sizeof_Individual)).residence
        fitness := calculate_residence_points
          (a.read ((n : Int) * sizeof_Individual)).residence }, ?_, ?_, ?_, ?_, ?_⟩
    · rw [foldlM_range_succ, ha]
      simp [evaluate_individual, BumpAllocator.get_individual_by_index, hle2]
    · simp [BumpAllocator.write, hitems]
    · simp [BumpAllocator.write, hcap]
    · intro i hi
      by_cases hin : i = n
      · subst hin
        simp [BumpAllocator.write, BumpAllocator.read, hold]
      · have hne : (i : Int) * sizeof_Individual ≠ (n : Int) * sizeof_Individual := by
          rw [Ne, position_inj]; omega
        simp only [BumpAllocator.write, hne, if_false]
        exact hval i (by omega)
    · intro q hq
      have hne : q ≠ (n : Int) * sizeof_Individual := hq n (by omega)
      simp only [BumpAllocator.write, hne, if_false]
      exact hframe q (fun i hi => hq i (by omega))

/-- What `calculate_population_fitness` does: it succeeds and overwrites the
fitness of every candidate below the fill count with its score. -/
theorem calculate_population_fitness_spec (a0 : BumpAllocator) (h0 : 0 ≤ a0.items) :
    ∃ a, calculate_population_fitness a0 = some a
      ∧ a.items = a0.items ∧ a.capacity = a0.capacity
      ∧ (∀ i : Int, 0 ≤ i → i < a0.items →
          a.buffer (i * sizeof_Individual)
            = { residence := (a0.buffer (i * sizeof_Individual)).residence
                fitness := calculate_residence_points
                  (a0.buffer (i * sizeof_Individual)).residence }) := by
  obtain ⟨a, ha, hitems, hcap, hval, _⟩ := evaluate_loop a0 a0.items.toNat (by omega)
  refine ⟨a, ha, hitems, hcap, ?_⟩
  intro i hi0 hi
  have := hval i.toNat (by omega)
  have hcast : ((i.toNat : Nat) : Int) = i := by omega
  rw [hcast] at this
  exact this

/-- The first generation's random candidates. -/
theorem generate_loop (src : Nat → Nat) (a0 : BumpAllocator) (pos0 : Nat) :
    ∀ n : Nat, a0.items + n ≤ a0.capacity →
      ∃ a, (List.range n).foldlM (fun st _ => generate_random_individual src st.1 st.2)
            (a0, pos0) = some (a, pos0 + 8 * n)
        ∧ a.items = a0.items + n ∧ a.capacity = a0.capacity
        ∧ (∀ j : Nat, j < n →
            a.buffer ((a0.items + j) * sizeof_Individual) = random_individual src (pos0 + 8 * j))
        ∧ (∀ q, (∀ j : Nat, j < n → q ≠ (a0.items + j) * sizeof_Individual) →
            a.buffer q = a0.buffer q) := by
  intro n
  induction n with
  | zero =>
    intro _
    exact ⟨a0, by simp, by simp, rfl, by simp, by simp⟩
  | succ n ih =>
    intro hcap
    obtain ⟨a, ha, hitems, hcapa, hval, hframe⟩ := ih (by push_cast at hcap; omega)
    have halloc : a.items + 1 ≤ a.capacity := by
      rw [hitems, hcapa]; push_cast at hcap; omega
    refine ⟨(⟨a.buffer, a.capacity, a.items + 1⟩ : BumpAllocator).write
      (a.items * sizeof_Individual) (random_individual src (pos0 + 8 * n)), ?_, ?_, ?_, ?_, ?_⟩
    · rw [foldlM_range_succ, ha]
      simp [generate_random_individual, BumpAllocator.allocate, halloc]
      omega
    · simp [BumpAllocator.write, hitems]; omega
    · simp [BumpAllocator.write, hcapa]
    · intro j hj
      by_cases hjn : j = n
      · subst hjn
        simp [BumpAllocator.write, hitems]
      · have hne : (a0.items + (j : Int)) * sizeof_Individual ≠ a.items * sizeof_Individual := by
          rw [Ne, position_inj, hitems]; omega
        simp only [BumpAllocator.write, hne, if_false]
        exact hval j (by omega)
    · intro q hq
      have hne : q ≠ a.items * sizeof_Individual := by
        rw [hitems]; exact hq n (by omega)
      simp only [BumpAllocator.write, hne, if_false]
      exact hframe q (fun j hj => hq j (by omega))

/-- The indices in the result sequence stay inside the population: old entries
by assumption, new ones because they are the loop counter. -/
theorem sorted_entries_index_range (sort : List (ℚ × Int) → List (ℚ × Int))
    (hsort : IsStdSort sort) (cur : BumpAllocator) (old : List (ℚ × Int))
    (hold : ∀ e ∈ old, 0 ≤ e.2 ∧ e.2 < cur.items) :
    ∀ e ∈ sort (old ++ fitness_entries cur), 0 ≤ e.2 ∧ e.2 < cur.items := by
  intro e he
  have h := (hsort _).1.subset he
  rcases List.mem_append.mp h with h1 | h2
  · exact hold e h1
  · have := mem_fitness_entries.mp h2
    exact ⟨this.1, this.2.1⟩

/-- One iteration of the loop of `main` from a state with a full current buffer,
an empty next buffer and a result sequence with indices inside the population:
every step succeeds; the result sequence becomes the old one plus the 32 new
pairs, sorted as a whole; the next buffer receives the candidates at the
indices of its first 16 entries and 16 children. -/
theorem generation_spec (sort : List (ℚ × Int) → List (ℚ × Int)) (hsort : IsStdSort sort)
    (RAND_MAX : Nat) (src : Nat → Nat) (d : Driver)
    (hcur : d.current_generation_allocator.items = 32)
    (hnext : d.next_generation_allocator.items = 0)
    (hcap : 32 ≤ d.next_generation_allocator.capacity)
    (hsel : ∀ e ∈ d.selected_individuals, 0 ≤ e.2 ∧ e.2 < 32) :
    ∃ cur sel nxt ind,
      calculate_population_fitness d.current_generation_allocator = some cur
      ∧ cur.items = 32 ∧ cur.capacity = d.current_generation_allocator.capacity
      ∧ (∀ i : Int, 0 ≤ i → i < 32 →
          cur.buffer (i * sizeof_Individual)
            = { residence :=
                  (d.current_generation_allocator.buffer (i * sizeof_Individual)).residence
                fitness := calculate_residence_points
                  (d.current_generation_allocator.buffer (i * sizeof_Individual)).residence })
      ∧ sel = sort (d.selected_individuals ++ fitness_entries cur)
      ∧ select_individuals sort cur N_SURVIVORS d.selected_individuals = some sel
      ∧ crossover RAND_MAX mutation_rate src cur d.next_generation_allocator sel d.pos
          = some (nxt, d.pos + 272)
      ∧ nxt.items = 32 ∧ nxt.capacity = d.next_generation_allocator.capacity
      ∧ (∀ (i : Nat) (e : ℚ × Int), i < 16 → sel[i]? = some e →
          nxt.buffer ((i : Int) * sizeof_Individual) = cur.buffer (e.2 * sizeof_Individual))
      ∧ (∀ j : Nat, j < 16 →
          nxt.buffer ((16 + (j : Int)) * sizeof_Individual)
            = (crossover_child RAND_MAX mutation_rate src
                (drawn_parent cur sel (src (d.pos + 17 * j)))
                (drawn_parent cur sel (src (d.pos + 17 * j + 1)))
                (d.pos + 17 * j + 2)).1)
      ∧ generation sort RAND_MAX src d
          = some { current_generation_allocator := nxt
                   next_generation_allocator := cur.reset
                   selected_individuals := sel
                   pos := d.pos + 272
                   printed := d.printed ++ [ind] } := by
  obtain ⟨cur, hcalc, hitems, hccap, hval⟩ :=
    calculate_population_fitness_spec d.current_generation_allocator (by rw [hcur]; decide)
  rw [hcur] at hitems hval
  have hselect := select_spec sort cur N_SURVIVORS d.selected_individuals
    (by rw [hitems]; decide) (by rw [hitems]; decide)
  have hrange := sorted_entries_index_range sort hsort cur d.selected_individuals
    (by rw [hitems]; exact hsel)
  rw [hitems] at hrange
  have hlen : 16 ≤ (sort (d.selected_individuals ++ fitness_entries cur)).length := by
    rw [(hsort _).1.length_eq, List.length_append, fitness_entries_length, hitems]
    have : (32 : Int).toNat = 32 := by decide
    omega
  have hidx : ∀ i e, i < 16 → (sort (d.selected_individuals ++ fitness_entries cur))[i]? = some e →
      e.2 ≤ cur.items := by
    intro i e _ he
    rw [hitems]
    exact le_of_lt (hrange e (List.getElem?_mem he)).2
  obtain ⟨nxt, hcross, hnitems, hncap, helite, hchild, _⟩ :=
    crossover_spec RAND_MAX mutation_rate src cur d.next_generation_allocator
      (sort (d.selected_individuals ++ fitness_entries cur)) d.pos hlen hidx
      (by rw [hnext]; exact hcap)
  rw [hnext] at hnitems helite hchild
  have hnitems2 : nxt.items = 32 := by rw [hnitems]; rfl
  -- the head of the ranking and the candidate printed
  obtain ⟨e0, rest, hsorted⟩ : ∃ e0 rest,
      sort (d.selected_individuals ++ fitness_entries cur) = e0 :: rest := by
    cases h : sort (d.selected_individuals ++ fitness_entries cur) with
    | nil => rw [h] at hlen; simp at hlen
    | cons a t => exact ⟨a, t, rfl⟩
  have he0 : e0.2 ≤ nxt.items := by
    rw [hnitems2]
    exact le_of_lt (hrange e0 (by rw [hsorted]; exact List.mem_cons_self _ _)).2
  refine ⟨cur, sort (d.selected_individuals ++ fitness_entries cur), nxt,
    nxt.buffer (e0.2 * sizeof_Individual), hcalc, hitems, hccap, hval, rfl, hselect, hcross, hnitems2,
    hncap, ?_, ?_, ?_⟩
  · intro i e hi he
    have := helite i e hi he
    rw [zero_add] at this
    exact this
  · intro j hj
    have := hchild j hj
    rw [zero_add] at this
    exact this
  · simp only [generation, hcalc, hselect, hcross]
    simp only [report, hsorted, BumpAllocator.get_individual_by_index, he0, if_true,
      BumpAllocator.read]

/-- The state of `main` before the loop: 256 calls of `rand()`, a full first
buffer of random candidates, an empty second buffer, an empty result sequence. -/
theorem main_init_spec (src : Nat → Nat) (memA memB : Int → Individual) :
    ∃ d0, main_init src memA memB = some d0
      ∧ d0.selected_individuals = [] ∧ d0.pos = 256 ∧ d0.printed = []
      ∧ d0.current_generation_allocator.items = 32
      ∧ d0.current_generation_allocator.capacity = 32
      ∧ d0.next_generation_allocator.items = 0
      ∧ d0.next_generation_allocator.capacity = 32
      ∧ ∀ j : Nat, j < 32 →
          d0.current_generation_allocator.buffer ((j : Int) * sizeof_Individual)
            = random_individual src (8 * j) := by
  obtain ⟨a, ha, hitems, hcap, hval, _⟩ :=
    generate_loop src (BumpAllocator.init memA POPULATION_SIZE) 0 32
      (by simp [BumpAllocator.init, POPULATION_SIZE])
  refine ⟨{ current_generation_allocator := a
            next_generation_allocator := BumpAllocator.init memB POPULATION_SIZE
            selected_individuals := []
            pos := 256
            printed := [] }, ?_, rfl, rfl, rfl, ?_, ?_, rfl, rfl, ?_⟩
  · have h32 : POPULATION_SIZE.toNat = 32 := by decide
    simp only [main_init, generate_random_individuals, h32, ha]
  · rw [hitems]; rfl
  · rw [hcap]; rfl
  · intro j hj
    have := hval j hj
    simp only [BumpAllocator.init, zero_add] at this
    exact this

/-- An entry of the input that fewer than `k` others tie or beat is among the
first `k` entries of the sorted sequence. -/
theorem mem_take_of_few_ge {out l : List (ℚ × Int)} (hp : out.Perm l)
    (hs : out.Pairwise (fun a b => ¬ (b.1 > a.1))) (e : ℚ × Int) (he : e ∈ l) (k : Nat)
    (hcount : (l.filter (fun x => decide (e.1 ≤ x.1))).length ≤ k) : e ∈ out.take k := by
  by_contra hnot
  have heout : e ∈ out := hp.symm.subset he
  rw [← List.take_append_drop k out, List.mem_append] at heout
  have hdrop : e ∈ out.drop k := heout.resolve_left hnot
  have hk : k < out.length := by
    by_contra hge
    rw [List.drop_of_length_le (by omega)] at hdrop
    simp at hdrop
  have hall : (out.take k).filter (fun x => decide (e.1 ≤ x.1)) = out.take k := by
    rw [List.filter_eq_self]
    intro a ha
    simpa using take_ge_drop hs k a ha e hdrop
  have hpos : 0 < ((out.drop k).filter (fun x => decide (e.1 ≤ x.1))).length :=
    List.length_pos_of_mem (List.mem_filter.mpr ⟨hdrop, by simp⟩)
  have hlen : (out.filter (fun x => decide (e.1 ≤ x.1))).length
      = (l.filter (fun x => decide (e.1 ≤ x.1))).length := (hp.filter _).length_eq
  have hsplit : (out.filter (fun x => decide (e.1 ≤ x.1))).length
      = k + ((out.drop k).filter (fun x => decide (e.1 ≤ x.1))).length := by
    conv_lhs => rw [← List.take_append_drop k out]
    rw [List.filter_append, List.length_append, hall, List.length_take]
    omega
  omega

theorem points_plain_shower : calculate_residence_points plain_shower = 4 := by decide!

theorem points_full_combo : calculate_residence_points full_combo = 14 := by decide!

/-- The first population under `csrc`. -/
theorem csrc_first_population (j : Nat) (hj : j < 32) :
    (random_individual csrc (8 * j)).residence
      = if j = 31 then full_combo else plain_shower := by
  revert j
  decide

/-- A child all of whose fifteen draws return 0: a shower, and each amenity flag is
the negation of the second parent's flag (`mix` picks `b`, `mutate` flips it). -/
theorem crossover_child_of_zero_draws (RAND_MAX : Nat) (src : Nat → Nat) (r1 r2 : Residence)
    (pos : Nat) (h : ∀ k : Nat, k < 15 → src (pos + k) = 0) :
    (crossover_child RAND_MAX mutation_rate src r1 r2 pos).1
      = { residence :=
            { has_shower := true
              has_bath := false
              has_bath_and_shower := false
              has_sink := !r2.has_sink
              has_dual_sink := !r2.has_dual_sink
              has_curtain := !r2.has_curtain
              has_radiator := !r2.has_radiator
              has_closet := !r2.has_closet
              has_wallsocket := !r2.has_wallsocket
              has_thermostatic := !r2.has_thermostatic }
          fitness := 0 } := by
  have h0 := h 0 (by decide)
  have h1 := h 1 (by decide)
  have h2 := h 2 (by decide)
  have h3 := h 3 (by decide)
  have h4 := h 4 (by decide)
  have h5 := h 5 (by decide)
  have h6 := h 6 (by decide)
  have h7 := h 7 (by decide)
  have h8 := h 8 (by decide)
  have h9 := h 9 (by decide)
  have h10 := h 10 (by decide)
  have h11 := h 11 (by decide)
  have h12 := h 12 (by decide)
  have h13 := h 13 (by decide)
  have h14 := h 14 (by decide)
  simp only [Nat.add_zero] at h0
  simp [crossover_child, gene, mutate, mix, mutation_rate, Nat.add_assoc, h0, h1, h2, h3, h4,
    h5, h6, h7, h8, h9, h10, h11, h12, h13, h14]

/-- The draws of the first `crossover` under `csrc`: the first fifteen children
take both parents at rank 1, the sixteenth at rank 0, and all other draws are 0. -/
theorem csrc_first_draws :
    (∀ j : Nat, j < 15 → csrc (256 + 17 * j) = 1 ∧ csrc (256 + 17 * j + 1) = 1)
      ∧ csrc (256 + 17 * 15) = 0 ∧ csrc (256 + 17 * 15 + 1) = 0
      ∧ ∀ j : Nat, j < 16 → ∀ k : Nat, k < 15 → csrc (256 + 17 * j + 2 + k) = 0 := by
  decide

/-- The children of the first `crossover` under `csrc`, given the parents drawn. -/
theorem csrc_first_children (RAND_MAX : Nat) :
    (∀ j : Nat, j < 15 → csrc (256 + 17 * j) = 1 ∧ csrc (256 + 17 * j + 1) = 1
        ∧ (crossover_child RAND_MAX mutation_rate csrc plain_shower plain_shower
            (256 + 17 * j + 2)).1 = ⟨full_shower, 0⟩)
      ∧ csrc (256 + 17 * 15) = 0 ∧ csrc (256 + 17 * 15 + 1) = 0
      ∧ (crossover_child RAND_MAX mutation_rate csrc full_combo full_combo
            (256 + 17 * 15 + 2)).1 = ⟨plain_shower, 0⟩ := by
  obtain ⟨hd, hz1, hz2, hzero⟩ := csrc_first_draws
  refine ⟨?_, hz1, hz2, ?_⟩
  · intro j hj
    refine ⟨(hd j hj).1, (hd j hj).2, ?_⟩
    rw [crossover_child_of_zero_draws RAND_MAX csrc _ _ _ (hzero j (by omega))]
    rfl
  · rw [crossover_child_of_zero_draws RAND_MAX csrc _ _ _ (hzero 15 (by decide))]
    rfl

/-- The shape of a sorted permutation of `first_entries`: the pair of candidate
31 first, then pairs of candidates below 31. -/
theorem csrc_first_ranking {sel : List (ℚ × Int)} (hp : sel.Perm first_entries)
    (hs : sel.Pairwise (fun a b => ¬ (b.1 > a.1))) :
    sel[0]? = some (14, 31)
      ∧ ∀ n : Nat, 1 ≤ n → n < 32 → ∃ e, sel[n]? = some e ∧ 0 ≤ e.2 ∧ e.2 < 31 := by
  obtain ⟨t, ht, hpt, _⟩ := sorted_perm_head hp hs (by
    intro x hx
    simp only [List.mem_map, List.mem_range] at hx
    obtain ⟨i, _, rfl⟩ := hx
    norm_num)
  subst ht
  refine ⟨by simp, ?_⟩
  intro n hn1 hn2
  have hlen : t.length = 31 := by rw [hpt.length_eq]; simp
  obtain ⟨m, rfl⟩ : ∃ m, n = m + 1 := ⟨n - 1, by omega⟩
  have hm : m < t.length := by omega
  refine ⟨t[m], by simp [List.getElem?_cons_succ, List.getElem?_eq_getElem hm], ?_⟩
  have hmem : t[m] ∈ (List.range 31).map (fun (i : Nat) => ((4 : ℚ), (i : Int))) :=
    hpt.subset (List.getElem_mem hm)
  simp only [List.mem_map, List.mem_range] at hmem
  obtain ⟨i, hi, hie⟩ := hmem
  rw [← hie]
  exact ⟨Int.natCast_nonneg i, by show (i : Int) < 31; omega⟩

/-- The first iteration of the loop of `main` under `csrc`, for any sort: the
second generation has the feature vectors `second_residence`, and the result
sequence holds the 32 pairs of the first generation. -/
theorem csrc_first_generation (sort : List (ℚ × Int) → List (ℚ × Int))
    (hsort : IsStdSort sort) (RAND_MAX : Nat) (memA memB : Int → Individual) :
    ∃ d1, (main_init csrc memA memB).bind (generation sort RAND_MAX csrc) = some d1
      ∧ d1.current_generation_allocator.items = 32
      ∧ d1.next_generation_allocator.items = 0
      ∧ d1.next_generation_allocator.capacity = 32
      ∧ d1.selected_individuals.Perm first_entries
      ∧ ∀ i : Int, 0 ≤ i → i < 32 →
          (d1.current_generation_allocator.buffer (i * sizeof_Individual)).residence
            = second_residence i := by
  obtain ⟨d0, hd0, hsel0, hpos0, _, hit0, hcap0, hnit0, hncap0, hslots0⟩ :=
    main_init_spec csrc memA memB
  obtain ⟨cur, sel, nxt, ind, hcalc, hcit, hccap, hcval, hseleq, hselect, hcross, hnit, hncap,
      helite, hchild, hgen⟩ :=
    generation_spec sort hsort RAND_MAX csrc d0 hit0 hnit0 (by rw [hncap0])
      (by rw [hsel0]; simp)
  -- the evaluated first generation
  have hcur : ∀ i : Int, 0 ≤ i → i < 32 →
      cur.buffer (i * sizeof_Individual)
        = if i = 31 then ⟨full_combo, 14⟩ else ⟨plain_shower, 4⟩ := by
    intro i hi0 hi
    have hcast : ((i.toNat : Nat) : Int) = i := by omega
    have hslot := hslots0 i.toNat (by omega)
    rw [hcast] at hslot
    rw [hcval i hi0 hi, hslot, csrc_first_population i.toNat (by omega)]
    have hiff : i.toNat = 31 ↔ i = 31 := by omega
    by_cases h31 : i = 31
    · simp [h31, points_full_combo]
    · simp [h31, hiff, points_plain_shower]
  have hent : fitness_entries cur
      = (List.range 32).map
          (fun (i : Nat) => ((if i = 31 then (14 : ℚ) else 4), (i : Int))) := by
    unfold fitness_entries
    rw [hcit]
    have h32 : (32 : Int).toNat = 32 := by decide
    rw [h32]
    apply List.map_congr_left
    intro i hi
    have hlt : i < 32 := List.mem_range.mp hi
    rw [hcur i (Int.natCast_nonneg i) (by omega)]
    by_cases h31 : i = 31
    · simp [h31]
    · have : ¬ ((i : Int) = 31) := by omega
      simp [h31, this]
  have hperm1 : ((List.range 32).map
      (fun (i : Nat) => ((if i = 31 then (14 : ℚ) else 4), (i : Int)))).Perm first_entries := by
    decide!
  have hp : sel.Perm first_entries := by
    rw [hseleq, hsel0, List.nil_append]
    exact (hsort _).1.trans (hent ▸ hperm1)
  have hs : sel.Pairwise (fun a b => ¬ (b.1 > a.1)) := by
    rw [hseleq]; exact (hsort _).2
  obtain ⟨hhead, hrest⟩ := csrc_first_ranking hp hs
  -- the parents the draws 0 and 1 select
  have hdraw0 : drawn_parent cur sel 0 = full_combo := by
    simp [drawn_parent, N_SURVIVORS_toNat, hhead, hcur 31 (by decide) (by decide)]
  have hdraw1 : drawn_parent cur sel 1 = plain_shower := by
    obtain ⟨e, he, he0, he31⟩ := hrest 1 (by decide) (by decide)
    have hne : ¬ (e.2 = 31) := by omega
    simp [drawn_parent, N_SURVIVORS_toNat, he, hcur e.2 he0 (by omega), hne]
  refine ⟨_, by rw [hd0]; exact hgen, hnit, by simp [BumpAllocator.reset],
    by simp [BumpAllocator.reset, hccap, hcap0], hp, ?_⟩
  intro i hi0 hi
  show (nxt.buffer (i * sizeof_Individual)).residence = second_residence i
  have hcast : ((i.toNat : Nat) : Int) = i := by omega
  by_cases h16 : i < 16
  · by_cases hz : i = 0
    · subst hz
      have := helite 0 _ (by decide) hhead
      simp only [Nat.cast_zero] at this
      rw [this, hcur 31 (by decide) (by decide)]
      simp [second_residence]
    · obtain ⟨e, he, he0, he31⟩ := hrest i.toNat (by omega) (by omega)
      have := helite i.toNat e (by omega) he
      rw [hcast] at this
      have hne : ¬ (e.2 = 31) := by omega
      rw [this, hcur e.2 he0 (by omega)]
      simp [second_residence, hz, h16, hne]
  · have hcast2 : (((i - 16).toNat : Nat) : Int) = i - 16 := by omega
    have hch := hchild (i - 16).toNat (by omega)
    have hpos : (16 : Int) + (i - 16) = i := by omega
    rw [hcast2, hpos, hpos0] at hch
    rw [hch]
    by_cases h31 : i = 31
    · subst h31
      have hj : ((31 : Int) - 16).toNat = 15 := by decide
      rw [hj, (csrc_first_children RAND_MAX).2.1, (csrc_first_children RAND_MAX).2.2.1, hdraw0,
        (csrc_first_children RAND_MAX).2.2.2]
      simp [second_residence]
    · obtain ⟨c1, c2, c3⟩ := (csrc_first_children RAND_MAX).1 (i - 16).toNat (by omega)
      rw [c1, c2, hdraw1, c3]
      have hnz : ¬ (i = 0) := by omega
      have hlt : i < 31 := by omega
      simp [second_residence, hnz, h16, hlt]

theorem first_entries_range : ∀ e ∈ first_entries, 0 ≤ e.2 ∧ e.2 < 32 := by
  intro e he
  simp only [first_entries, List.mem_cons, List.mem_map, List.mem_range] at he
  rcases he with rfl | ⟨i, hi, rfl⟩
  · decide
  · exact ⟨Int.natCast_nonneg i, by show (i : Int) < 32; omega⟩

/-- Two pairs reach 14 points in the second round under `csrc`. -/
theorem csrc_second_round_top :
    ((14 : ℚ), (31 : Int)) ∈ first_entries ++ second_entries
      ∧ ((first_entries ++ second_entries).filter
          (fun x => decide (((14 : ℚ), (31 : Int)).1 ≤ x.1))).length ≤ 16 := by
  decide!

theorem better_candidates_facts :
    (31 :: better_candidates).Nodup ∧ (31 :: better_candidates).length = 17
      ∧ ∀ j ∈ better_candidates, 0 ≤ j ∧ j < 32
          ∧ calculate_residence_points plain_shower
              < calculate_residence_points (second_residence j) := by
  decide!

/-- C7 (the code at the failing input): under `csrc`, with any sort that meets
the postcondition of `std::sort`, any `RAND_MAX` and any initial storage content,
the second iteration of the loop of `main` ranks the stale pair (14, 31) of the
first iteration among the first 16, so it carries over candidate 31 of the current
buffer (4 points) while a candidate with more points is not carried over. -/
theorem second_generation_carries_stale_index (sort : List (ℚ × Int) → List (ℚ × Int))
    (hsort : IsStdSort sort) (RAND_MAX : Nat) (memA memB : Int → Individual) :
    ∃ d1 cur2 d2,
      (main_init csrc memA memB).bind (generation sort RAND_MAX csrc) = some d1
      ∧ calculate_population_fitness d1.current_generation_allocator = some cur2
      ∧ generation sort RAND_MAX csrc d1 = some d2
      ∧ ∃ (k : Nat) (j : Int) (carried left : Individual), k < 16 ∧ 0 ≤ j ∧ j < 32
          ∧ d2.selected_individuals[k]? = some (14, 31)
          ∧ (∀ e ∈ d2.selected_individuals.take 16, e.2 ≠ j)
          ∧ d2.current_generation_allocator.individual (k : Int) = some carried
          ∧ cur2.individual 31 = some carried
          ∧ cur2.individual j = some left
          ∧ carried.fitness < left.fitness := by
  obtain ⟨d1, hd1, hit1, hnit1, hncap1, hperm1, hres1⟩ :=
    csrc_first_generation sort hsort RAND_MAX memA memB
  obtain ⟨cur, sel, nxt, ind, hcalc, hcit, _, hcval, hseleq, _, _, hnit, _, helite, _, hgen⟩ :=
    generation_spec sort hsort RAND_MAX csrc d1 hit1 hnit1 (by rw [hncap1])
      (fun e he => first_entries_range e (hperm1.subset he))
  have hcur : ∀ i : Int, 0 ≤ i → i < 32 →
      cur.buffer (i * sizeof_Individual)
        = ⟨second_residence i, calculate_residence_points (second_residence i)⟩ := by
    intro i hi0 hi
    rw [hcval i hi0 hi, hres1 i hi0 hi]
  have hent : fitness_entries cur = second_entries := by
    unfold fitness_entries second_entries
    rw [hcit]
    have h32 : (32 : Int).toNat = 32 := by decide
    rw [h32]
    apply List.map_congr_left
    intro i hi
    have hlt : i < 32 := List.mem_range.mp hi
    rw [hcur i (Int.natCast_nonneg i) (by omega)]
  have hp : sel.Perm (first_entries ++ second_entries) := by
    rw [hseleq, hent]
    exact (hsort _).1.trans (hperm1.append_right second_entries)
  have hs : sel.Pairwise (fun a b => ¬ (b.1 > a.1)) := by
    rw [hseleq]; exact (hsort _).2
  have htop : ((14 : ℚ), (31 : Int)) ∈ sel.take 16 :=
    mem_take_of_few_ge hp hs (14, 31) csrc_second_round_top.1 16 csrc_second_round_top.2
  obtain ⟨k, hk⟩ := List.mem_iff_getElem?.mp htop
  have hk16 : k < 16 := by
    by_contra hge
    rw [List.getElem?_take_eq_none (by omega)] at hk
    cases hk
  rw [List.getElem?_take_of_lt hk16] at hk
  -- a better candidate that is not among the first 16 indices
  obtain ⟨hnodup, hlen17, hbetter⟩ := better_candidates_facts
  have hex : ∃ j ∈ better_candidates, j ∉ (sel.take 16).map Prod.snd := by
    by_contra hall
    push_neg at hall
    have hsub : (31 :: better_candidates) ⊆ (sel.take 16).map Prod.snd := by
      intro x hx
      rcases List.mem_cons.mp hx with rfl | hx
      · exact List.mem_map_of_mem Prod.snd htop
      · exact hall x hx
    have := (List.subperm_of_subset hnodup hsub).length_le
    rw [hlen17, List.length_map, List.length_take] at this
    omega
  obtain ⟨j, hj, hjnot⟩ := hex
  obtain ⟨hj0, hj32, hjfit⟩ := hbetter j hj
  refine ⟨d1, cur, _, hd1, hcalc, hgen, k, j, cur.buffer (31 * sizeof_Individual),
    cur.buffer (j * sizeof_Individual), hk16, hj0, hj32, hk, ?_, ?_, ?_, ?_, ?_⟩
  · intro e he hej
    exact hjnot (hej ▸ List.mem_map_of_mem Prod.snd he)
  · rw [individual_eq nxt k (by rw [hnit]; omega), helite k _ hk16 hk]
  · exact individual_eq cur 31 (by rw [hcit]; decide)
  · exact individual_eq cur j (by rw [hcit]; omega)
  · rw [hcur 31 (by decide) (by decide), hcur j hj0 hj32]
    exact hjfit

theorem second_generation_carries_stale_index_witness :
    IsStdSort stable_sort ∧
    ∃ d1 cur2 d2,
      (main_init csrc mem0 mem0).bind (generation stable_sort 2147483647 csrc) = some d1
      ∧ calculate_population_fitness d1.current_generation_allocator = some cur2
      ∧ generation stable_sort 2147483647 csrc d1 = some d2
      ∧ ∃ (k : Nat) (j : Int) (carried left : Individual), k < 16 ∧ 0 ≤ j ∧ j < 32
          ∧ d2.selected_individuals[k]? = some (14, 31)
          ∧ (∀ e ∈ d2.selected_individuals.take 16, e.2 ≠ j)
          ∧ d2.current_generation_allocator.individual (k : Int) = some carried
          ∧ cur2.individual 31 = some carried
          ∧ cur2.individual j = some left
          ∧ carried.fitness < left.fitness :=
  ⟨stable_sort_isStdSort,
    second_generation_carries_stale_index stable_sort stable_sort_isStdSort 2147483647 mem0 mem0⟩

/-! ## The driver: Finalize -/

/-- C6 (the code at the failing input): with `rand()` returning 0 at every call
and a sort that keeps pairs of equal fitness in their input order, `main` runs to
the end; the result sequence has grown to 160 entries, its entry 0 is the stale
pair (8, 16) of the second iteration, and the candidate printed at Finalize is
candidate 16 of the final buffer with 4 points, while candidate 0 of the final
buffer has 8 points. -/
theorem finalize_reports_weaker_candidate :
    (main stable_sort 2147483647 zsrc mem0 mem0).map
        (fun d =>
          (d.selected_individuals.length,
           d.selected_individuals.head?,
           d.printed.getLast?.map (fun ind => ind.fitness),
           (d.current_generation_allocator.individual 16).map (fun ind => ind.fitness),
           (d.current_generation_allocator.individual 0).map (fun ind => ind.fitness)))
      = some (160, some (8, 16), some 4, some 4, some 8) := by
  decide!

/-! ## The population store: positions and reuse -/

/-- C11 (the code at the failing input): `allocate` returns `buffer + items *
sizeof(Individual)` on an `Individual*`, so the position it returns, counted in
candidates, is 16 times the fill count and not the fill count; `get_individual_by_index`
scales the index the same way.  On a store of capacity 32 the first three single
allocations return the positions 0, 16 and 32, and 32 is not below the capacity. -/
theorem allocate_position_scaled_by_sizeof (a : BumpAllocator) (k i : Int)
    (mem : Int → Individual) (hk : 1 ≤ k) (hroom : a.items + k ≤ a.capacity)
    (hi : 0 ≤ i) (hlt : i < a.items) :
    (∃ a1, a.allocate k = some (16 * a.items, a1))
      ∧ a.get_individual_by_index i = some (16 * i)
      ∧ (∃ a1 a2 a3, (BumpAllocator.init mem 32).allocate 1 = some (0, a1)
          ∧ a1.allocate 1 = some (16, a2) ∧ a2.allocate 1 = some (32, a3)
          ∧ ¬ (32 < (BumpAllocator.init mem 32).capacity)) := by
  have _ := hk
  have _ := hi
  refine ⟨⟨{ a with items := a.items + k }, ?_⟩, ?_, ?_⟩
  · simp [BumpAllocator.allocate, hroom, sizeof_Individual, mul_comm]
  · simp [BumpAllocator.get_individual_by_index, le_of_lt hlt, sizeof_Individual, mul_comm]
  · exact ⟨⟨mem, 32, 1⟩, ⟨mem, 32, 2⟩, ⟨mem, 32, 3⟩,
      by simp [BumpAllocator.allocate, BumpAllocator.init],
      by simp [BumpAllocator.allocate, sizeof_Individual],
      by simp [BumpAllocator.allocate, sizeof_Individual],
      by simp [BumpAllocator.init]⟩

theorem allocate_position_scaled_by_sizeof_witness :
    (1 : Int) ≤ 1 ∧ store_two.items + 1 ≤ store_two.capacity ∧ (0 : Int) ≤ 1
      ∧ 1 < store_two.items
      ∧ ((∃ a1, store_two.allocate 1 = some (16 * store_two.items, a1))
        ∧ store_two.get_individual_by_index 1 = some (16 * 1)
        ∧ (∃ a1 a2 a3, (BumpAllocator.init mem0 32).allocate 1 = some (0, a1)
            ∧ a1.allocate 1 = some (16, a2) ∧ a2.allocate 1 = some (32, a3)
            ∧ ¬ (32 < (BumpAllocator.init mem0 32).capacity))) :=
  ⟨by decide, by decide, by decide, by decide,
    allocate_position_scaled_by_sizeof store_two 1 1 mem0 (by decide) (by decide) (by decide)
      (by decide)⟩

/-- C12: in any state, `reset` sets the fill count to 0 and keeps the capacity and
the storage, and a following `allocate(capacity)` succeeds and leaves the fill count
equal to the capacity. -/
theorem reset_then_allocate_capacity (a : BumpAllocator) :
    a.reset.items = 0 ∧ a.reset.capacity = a.capacity ∧ a.reset.buffer = a.buffer
      ∧ ∃ p a1, a.reset.allocate a.capacity = some (p, a1)
          ∧ a1.items = a.capacity ∧ a1.capacity = a.capacity := by
  refine ⟨rfl, rfl, rfl, 0 * sizeof_Individual, { a.reset with items := 0 + a.capacity }, ?_, ?_, rfl⟩
  · simp [BumpAllocator.allocate, BumpAllocator.reset]
  · simp [BumpAllocator.reset]

/-! ## Fitness: order and maximum -/

theorem amenity_points_eq (r : Residence) : amenity_points r = spec_amenities r := by
  obtain ⟨a, b, c, d, e, f, g, h1, i, j⟩ := r
  simp only [amenity_points, spec_amenities]
  cases d <;> cases e <;> cases f <;> cases g <;> cases h1 <;> cases i <;> cases j <;>
    norm_num

theorem weight_mono (x y : Bool) (w : ℚ) (hw : 0 ≤ w) (h : x = true → y = true) :
    (if x = true then w else 0) ≤ (if y = true then w else 0) := by
  cases x <;> cases y <;> simp_all

/-- C19: of two feature vectors with the same three bathing-fixture flags, where
every amenity flag set in the first is set in the second, the second scores at
least as much as the first. -/
theorem more_amenities_never_lower (r1 r2 : Residence)
    (hs : r1.has_shower = r2.has_shower) (hb : r1.has_bath = r2.has_bath)
    (hbs : r1.has_bath_and_shower = r2.has_bath_and_shower)
    (h1 : r1.has_sink = true → r2.has_sink = true)
    (h2 : r1.has_dual_sink = true → r2.has_dual_sink = true)
    (h3 : r1.has_curtain = true → r2.has_curtain = true)
    (h4 : r1.has_radiator = true → r2.has_radiator = true)
    (h5 : r1.has_closet = true → r2.has_closet = true)
    (h6 : r1.has_wallsocket = true → r2.has_wallsocket = true)
    (h7 : r1.has_thermostatic = true → r2.has_thermostatic = true) :
    calculate_residence_points r1 ≤ calculate_residence_points r2 := by
  have hbase : bath_shower_points r1 = bath_shower_points r2 := by
    simp [bath_shower_points, hs, hb, hbs]
  have ham : amenity_points r1 ≤ amenity_points r2 := by
    rw [amenity_points_eq, amenity_points_eq]
    unfold spec_amenities
    have e1 := weight_mono _ _ (1 / 2) (by norm_num) h1
    have e2 := weight_mono _ _ 1 (by norm_num) h2
    have e3 := weight_mono _ _ 1 (by norm_num) h3
    have e4 := weight_mono _ _ (3 / 2) (by norm_num) h4
    have e5 := weight_mono _ _ 2 (by norm_num) h5
    have e6 := weight_mono _ _ (1 / 2) (by norm_num) h6
    have e7 := weight_mono _ _ 1 (by norm_num) h7
    linarith
  unfold calculate_residence_points
  rw [hbase]
  exact min_le_min (by linarith) le_rfl

theorem more_amenities_never_lower_witness :
    plain_shower.has_shower = full_shower.has_shower
      ∧ plain_shower.has_bath = full_shower.has_bath
      ∧ plain_shower.has_bath_and_shower = full_shower.has_bath_and_shower
      ∧ (plain_shower.has_sink = true → full_shower.has_sink = true)
      ∧ (plain_shower.has_dual_sink = true → full_shower.has_dual_sink = true)
      ∧ (plain_shower.has_curtain = true → full_shower.has_curtain = true)
      ∧ (plain_shower.has_radiator = true → full_shower.has_radiator = true)
      ∧ (plain_shower.has_closet = true → full_shower.has_closet = true)
      ∧ (plain_shower.has_wallsocket = true → full_shower.has_wallsocket = true)
      ∧ (plain_shower.has_thermostatic = true → full_shower.has_thermostatic = true)
      ∧ calculate_residence_points plain_shower ≤ calculate_residence_points full_shower :=
  ⟨rfl, rfl, rfl, by decide, by decide, by decide, by decide, by decide, by decide, by decide,
    more_amenities_never_lower plain_shower full_shower rfl rfl rfl (by decide) (by decide)
      (by decide) (by decide) (by decide) (by decide) (by decide)⟩

/-- C20: no feature vector scores more than 14, `full_combo` scores 14, and a
vector scores 14 exactly when `has_bath_and_shower` is set and its amenity points
are at least 7, that is with all seven amenities, all but the sink, or all but the
wall socket. -/
theorem largest_score_is_fourteen (r : Residence) :
    calculate_residence_points r ≤ 14
      ∧ calculate_residence_points full_combo = 14
      ∧ (calculate_residence_points r = 14
          ↔ r.has_bath_and_shower = true ∧ 7 ≤ amenity_points r)
      ∧ (7 ≤ amenity_points r
          ↔ r.has_dual_sink = true ∧ r.has_curtain = true ∧ r.has_radiator = true
              ∧ r.has_closet = true ∧ r.has_thermostatic = true
              ∧ ((r.has_sink = true ∧ r.has_wallsocket = true)
                  ∨ (r.has_sink = false ∧ r.has_wallsocket = true)
                  ∨ (r.has_sink = true ∧ r.has_wallsocket = false))) := by
  obtain ⟨a, b, c, d, e, f, g, h1, i, j⟩ := r
  revert a b c d e f g h1 i j
  decide!

/-! ## Reproduction: fill counts and failure -/

/-- C13: on a ranking of length ≥ N_SURVIVORS with valid indices and an empty
target of capacity ≥ POPULATION_SIZE, `crossover` succeeds and leaves the target
with fill count POPULATION_SIZE and its capacity: slots 0 to 15 hold the ranked
parents, slots 16 to 31 hold children built by the second loop.  The parent
allocator is an input that `crossover` only reads. -/
theorem crossover_fills_population (RAND_MAX : Nat) (rate : ℚ) (src : Nat → Nat)
    (parent child : BumpAllocator) (sel : List (ℚ × Int)) (pos : Nat)
    (hlen : N_SURVIVORS.toNat ≤ sel.length)
    (hvalid : ∀ e ∈ sel, 0 ≤ e.2 ∧ e.2 < parent.items)
    (hempty : child.items = 0) (hcap : POPULATION_SIZE ≤ child.capacity) :
    ∃ c p1, crossover RAND_MAX rate src parent child sel pos = some (c, p1)
      ∧ c.items = POPULATION_SIZE ∧ c.capacity = child.capacity
      ∧ (∀ i : Nat, (i : Int) < N_SURVIVORS →
          ∃ e, sel[i]? = some e ∧ c.individual (i : Int) = parent.individual e.2)
      ∧ (∀ j : Int, N_SURVIVORS ≤ j → j < POPULATION_SIZE →
          ∃ r1 r2 q, c.individual j = some (crossover_child RAND_MAX rate src r1 r2 q).1) := by
  have hidx : ∀ i e, i < 16 → sel[i]? = some e → e.2 ≤ parent.items := by
    intro i e _ he
    exact le_of_lt (hvalid e (List.getElem?_mem he)).2
  rw [N_SURVIVORS_toNat] at hlen
  obtain ⟨c, hc, hitems, hccap, helite, hchild, _⟩ :=
    crossover_spec RAND_MAX rate src parent child sel pos hlen hidx
      (by rw [hempty]; exact hcap)
  rw [hempty] at hitems helite hchild
  refine ⟨c, pos + 272, hc, by rw [hitems]; rfl, hccap, ?_, ?_⟩
  · intro i hi
    have hi16 : i < 16 := by
      have : (i : Int) < 16 := hi
      omega
    have hget : sel[i]? = some sel[i] := List.getElem?_eq_getElem (by omega)
    refine ⟨sel[i], hget, ?_⟩
    rw [individual_eq c i (by rw [hitems]; omega),
      individual_eq parent _ (hidx i _ hi16 hget)]
    have := helite i _ hi16 hget
    rw [zero_add] at this
    rw [this]
  · intro j hj1 hj2
    have h16 : (16 : Int) ≤ j := hj1
    have h32 : j < 32 := hj2
    have hch := hchild (j - 16).toNat (by omega)
    have hcast : (((j - 16).toNat : Nat) : Int) = j - 16 := by omega
    have hpos : (0 : Int) + 16 + (j - 16) = j := by omega
    rw [hcast, hpos] at hch
    exact ⟨_, _, _, by rw [individual_eq c j (by rw [hitems]; omega), hch]⟩

theorem crossover_fills_population_witness :
    N_SURVIVORS.toNat ≤ ranking16.length
      ∧ (∀ e ∈ ranking16, 0 ≤ e.2 ∧ e.2 < parent32.items)
      ∧ (BumpAllocator.init mem0 32).items = 0
      ∧ POPULATION_SIZE ≤ (BumpAllocator.init mem0 32).capacity
      ∧ ∃ c p1, crossover 2147483647 mutation_rate zsrc parent32 (BumpAllocator.init mem0 32)
            ranking16 0 = some (c, p1)
          ∧ c.items = POPULATION_SIZE ∧ c.capacity = (BumpAllocator.init mem0 32).capacity
          ∧ (∀ i : Nat, (i : Int) < N_SURVIVORS →
              ∃ e, ranking16[i]? = some e ∧ c.individual (i : Int) = parent32.individual e.2)
          ∧ (∀ j : Int, N_SURVIVORS ≤ j → j < POPULATION_SIZE →
              ∃ r1 r2 q, c.individual j
                = some (crossover_child 2147483647 mutation_rate zsrc r1 r2 q).1) :=
  ⟨by decide, ranking16_valid, rfl, by decide,
    crossover_fills_population 2147483647 mutation_rate zsrc parent32
      (BumpAllocator.init mem0 32) ranking16 0 (by decide) ranking16_valid rfl (by decide)⟩

/-- A successful iteration of the first loop of `crossover` found room for one
more candidate. -/
theorem crossover_elite_some {parent c c1 : BumpAllocator} {sel : List (ℚ × Int)} {i : Nat}
    (h : crossover_elite parent sel c i = some c1) :
    c.items + 1 ≤ c.capacity ∧ c1.items = c.items + 1 ∧ c1.capacity = c.capacity := by
  unfold crossover_elite at h
  split at h
  · cases h
  · split at h
    · cases h
    · by_cases hroom : c.items + 1 ≤ c.capacity
      · simp only [BumpAllocator.allocate, hroom, if_true] at h
        cases h
        exact ⟨hroom, rfl, rfl⟩
      · simp [BumpAllocator.allocate, hroom] at h

/-- A successful iteration of the second loop of `crossover` found room for one
more candidate. -/
theorem crossover_offspring_some {RAND_MAX : Nat} {rate : ℚ} {src : Nat → Nat}
    {parent : BumpAllocator} {sel : List (ℚ × Int)} {st st1 : BumpAllocator × Nat}
    (h : crossover_offspring RAND_MAX rate src parent sel st = some st1) :
    st.1.items + 1 ≤ st.1.capacity ∧ st1.1.items = st.1.items + 1
      ∧ st1.1.capacity = st.1.capacity := by
  unfold crossover_offspring at h
  split at h
  · cases h
  · split at h
    · cases h
    · split at h
      · cases h
      · split at h
        · cases h
        · by_cases hroom : st.1.items + 1 ≤ st.1.capacity
          · simp only [BumpAllocator.allocate, hroom, if_true] at h
            cases h
            exact ⟨hroom, rfl, rfl⟩
          · simp [BumpAllocator.allocate, hroom] at h

theorem elite_loop_some (parent : BumpAllocator) (sel : List (ℚ × Int)) (c0 : BumpAllocator) :
    ∀ (k : Nat) (c : BumpAllocator),
      (List.range k).foldlM (crossover_elite parent sel) c0 = some c →
      c.items = c0.items + k ∧ c.capacity = c0.capacity ∧ (k = 0 ∨ c.items ≤ c.capacity) := by
  intro k
  induction k with
  | zero =>
    intro c h
    simp at h
    subst h
    simp
  | succ k ih =>
    intro c h
    rw [foldlM_range_succ] at h
    obtain ⟨c1, hc1, hstep⟩ := Option.bind_eq_some.mp h
    obtain ⟨h1, h2, _⟩ := ih c1 hc1
    obtain ⟨hroom, hi, hc⟩ := crossover_elite_some hstep
    refine ⟨by rw [hi, h1]; push_cast; omega, by rw [hc, h2], Or.inr ?_⟩
    rw [hi, hc]; exact hroom

theorem offspring_loop_some (RAND_MAX : Nat) (rate : ℚ) (src : Nat → Nat)
    (parent : BumpAllocator) (sel : List (ℚ × Int)) (st0 : BumpAllocator × Nat) :
    ∀ (k : Nat) (st : BumpAllocator × Nat),
      (List.range k).foldlM
          (fun s _ => crossover_offspring RAND_MAX rate src parent sel s) st0 = some st →
      st.1.items = st0.1.items + k ∧ st.1.capacity = st0.1.capacity
        ∧ (k = 0 ∨ st.1.items ≤ st.1.capacity) := by
  intro k
  induction k with
  | zero =>
    intro st h
    simp at h
    subst h
    simp
  | succ k ih =>
    intro st h
    rw [foldlM_range_succ] at h
    obtain ⟨s1, hs1, hstep⟩ := Option.bind_eq_some.mp h
    obtain ⟨h1, h2, _⟩ := ih s1 hs1
    obtain ⟨hroom, hi, hc⟩ := crossover_offspring_some hstep
    refine ⟨by rw [hi, h1]; push_cast; omega, by rw [hc, h2], Or.inr ?_⟩
    rw [hi, hc]; exact hroom

/-- Whenever `crossover` completes, the target had room for `POPULATION_SIZE` more
candidates. -/
theorem crossover_some_room {RAND_MAX : Nat} {rate : ℚ} {src : Nat → Nat}
    {parent child : BumpAllocator} {sel : List (ℚ × Int)} {pos : Nat}
    {res : BumpAllocator × Nat}
    (h : crossover RAND_MAX rate src parent child sel pos = some res) :
    child.items + 32 ≤ child.capacity ∧ res.1.items = child.items + 32 := by
  unfold crossover at h
  simp only [N_SURVIVORS_toNat, remaining_toNat] at h
  split at h
  · cases h
  · rename_i ca hca
    obtain ⟨e1, e2, _⟩ := elite_loop_some parent sel child 16 ca hca
    obtain ⟨o1, o2, o3⟩ := offspring_loop_some RAND_MAX rate src parent sel (ca, pos) 16 res h
    simp only at o1 o2 o3
    rcases o3 with o3 | o3
    · omega
    · rw [o1, o2, e1, e2] at o3
      rw [o1, e1]
      push_cast at o3 ⊢
      omega

/-- C15 (counterexample): a target with fill count 1 and capacity 64 is not empty,
yet `crossover` completes on it and leaves it with 33 candidates. -/
theorem crossover_into_roomy_target_completes :
    0 < roomy_target.items
      ∧ ∃ c p1, crossover 2147483647 mutation_rate zsrc parent32 roomy_target ranking16 0
            = some (c, p1) ∧ c.items = 33 := by
  obtain ⟨c, hc, hitems, _⟩ :=
    crossover_spec 2147483647 mutation_rate zsrc parent32 roomy_target ranking16 0
      (by decide) (fun i e _ he => le_of_lt (ranking16_valid e (List.getElem?_mem he)).2)
      (by decide)
  exact ⟨by decide, c, _, hc, by rw [hitems]; rfl⟩

/-- C15 (amended): when the target has no room for POPULATION_SIZE more candidates
(fill count + POPULATION_SIZE exceeds its capacity), `crossover` fails for every
parent population, ranking and random source; this covers every target with a
fill count above 0 and a capacity of at most POPULATION_SIZE. -/
theorem crossover_fails_without_room (RAND_MAX : Nat) (rate : ℚ) (src : Nat → Nat)
    (parent child : BumpAllocator) (sel : List (ℚ × Int)) (pos : Nat)
    (hroom : child.capacity < child.items + POPULATION_SIZE) :
    crossover RAND_MAX rate src parent child sel pos = none
      ∧ (∀ t : BumpAllocator, 0 < t.items → t.capacity ≤ POPULATION_SIZE →
          crossover RAND_MAX rate src parent t sel pos = none) := by
  have key : ∀ t : BumpAllocator, t.capacity < t.items + POPULATION_SIZE →
      crossover RAND_MAX rate src parent t sel pos = none := by
    intro t ht
    cases h : crossover RAND_MAX rate src parent t sel pos with
    | none => rfl
    | some res =>
      have := (crossover_some_room h).1
      have h32 : POPULATION_SIZE = 32 := rfl
      omega
  exact ⟨key child hroom, fun t h0 hcap => key t (by omega)⟩

theorem crossover_fails_without_room_witness :
    store_two.capacity < store_two.items + POPULATION_SIZE
      ∧ (crossover 2147483647 mutation_rate zsrc parent32 store_two ranking16 0 = none
        ∧ (∀ t : BumpAllocator, 0 < t.items → t.capacity ≤ POPULATION_SIZE →
            crossover 2147483647 mutation_rate zsrc parent32 t ranking16 0 = none)) :=
  ⟨by decide,
    crossover_fails_without_room 2147483647 mutation_rate zsrc parent32 store_two ranking16 0
      (by decide)⟩

theorem mix_snd (src : Nat → Nat) (pos : Nat) (a b : Bool) : (mix src pos a b).2 = pos + 1 := rfl

end Bathroom
